import Mathlib

/-!
Wireframe tessellation of a damped circular-wave surface (`model.js`).

A shallow embedding of the class `Model` of `src/model.js`:

* `Model.surfacePoint` (lines 17-24), the analytic sampler;
* `Model.build` (lines 27-83), the two nested loops that fill the ring array
  `uLines` and the meridian array `vLines`;
* `Model.upload` (lines 85-96), the lazy creation of the two buffer handles.

Numbers.  Every JavaScript value in the file is an IEEE double.  The five
shape parameters `a n m b phi` only flow through `+ - * /`, `Math.exp`,
`Math.sin`, `Math.cos`; the embedding is generic in the scalar type `α` that
carries them and in the conversion to single precision that `Float32Array`
applies, so that the same definitions can be read over the reals (where no
rounding occurs and the conversion is the identity) and over `JsNum`, a small
model of the IEEE value classes (NaN, the infinities, finite values) with the
true single-precision conversion.  The four count parameters
`Nu Nr rLines uLines` only flow through the 32-bit conversion `x | 0`; they
are kept as `JsNum`.
-/

set_option autoImplicit false

/-! ## JavaScript numbers -/

/-- The value classes of a JavaScript number: NaN, the two infinities and the
finite values (every finite double is a rational).  Arithmetic on finite
values is exact here; the sign of zero is not tracked. -/
inductive JsNum where
  | nan : JsNum
  | inf (negative : Bool) : JsNum
  | fin (q : ℚ) : JsNum
  deriving DecidableEq

namespace JsNum

/-- ECMAScript `truncate`: drop the fractional part, rounding toward zero. -/
def truncate (q : ℚ) : ℤ := if 0 ≤ q then ⌊q⌋ else -⌊-q⌋

/-- ECMAScript `ToInt32` on an integer: reduce modulo 2^32 into
`[-2^31, 2^31)`. -/
def wrapInt32 (k : ℤ) : ℤ :=
  let int32bit := k % 2 ^ 32
  if 2 ^ 31 ≤ int32bit then int32bit - 2 ^ 32 else int32bit

/-- The expression `x | 0`: ECMAScript `ToInt32(x)`.  NaN and the infinities
give 0; a finite value is truncated and then wrapped. -/
def toInt32 : JsNum → ℤ
  | nan => 0
  | inf _ => 0
  | fin q => wrapInt32 (truncate q)

/-- Sign bit of a finite value (zero counts as positive). -/
def isNeg (q : ℚ) : Bool := decide (q < 0)

/-- IEEE addition on the value classes. -/
def add : JsNum → JsNum → JsNum
  | nan, _ => nan
  | _, nan => nan
  | inf s, inf t => if s = t then inf s else nan
  | inf s, fin _ => inf s
  | fin _, inf t => inf t
  | fin x, fin y => fin (x + y)

/-- IEEE negation. -/
def neg : JsNum → JsNum
  | nan => nan
  | inf s => inf (!s)
  | fin x => fin (-x)

/-- IEEE subtraction. -/
def sub (x y : JsNum) : JsNum := add x (neg y)

/-- IEEE multiplication: infinity times zero is NaN. -/
def mul : JsNum → JsNum → JsNum
  | nan, _ => nan
  | _, nan => nan
  | inf s, inf t => inf (xor s t)
  | inf s, fin y => if y = 0 then nan else inf (xor s (isNeg y))
  | fin x, inf t => if x = 0 then nan else inf (xor (isNeg x) t)
  | fin x, fin y => fin (x * y)

/-- IEEE division: a finite nonzero value over zero is an infinity, zero over
zero and infinity over infinity are NaN. -/
def div : JsNum → JsNum → JsNum
  | nan, _ => nan
  | _, nan => nan
  | inf _, inf _ => nan
  | inf s, fin y => inf (xor s (isNeg y))
  | fin _, inf _ => fin 0
  | fin x, fin y => if y = 0 then (if x = 0 then nan else inf (isNeg x)) else fin (x / y)

/-- Round to the nearest integer, a tie to the even one. -/
def roundHalfEven (q : ℚ) : ℤ :=
  let f := ⌊q⌋
  if q - f < 1 / 2 then f
  else if 1 / 2 < q - f then f + 1
  else if f % 2 = 0 then f else f + 1

/-- The conversion of a finite value to IEEE binary32, round to nearest, ties
to even: the value is rounded to a multiple of `2 ^ (e - 23)`, where `e` is
the exponent of its binade and at least `-126` (below that the subnormal
spacing `2 ^ (-149)` applies); a result of magnitude `2 ^ 128` or more is an
infinity. -/
def froundFinite (q : ℚ) : JsNum :=
  if q = 0 then fin 0
  else
    let e : ℤ := max (Int.log 2 |q|) (-126)
    let quantum : ℚ := 2 ^ (e - 23)
    let r : ℚ := (roundHalfEven (q / quantum) : ℚ) * quantum
    if 2 ^ 128 ≤ |r| then inf (isNeg q) else fin r

/-- The conversion to single precision that storing into a `Float32Array`
applies to a number (`Math.fround`). -/
def fround : JsNum → JsNum
  | nan => nan
  | inf s => inf s
  | fin q => froundFinite q

instance : Add JsNum := ⟨add⟩
instance : Sub JsNum := ⟨sub⟩
instance : Mul JsNum := ⟨mul⟩
instance : Div JsNum := ⟨div⟩
instance : Neg JsNum := ⟨neg⟩
instance : Zero JsNum := ⟨fin 0⟩
instance : NatCast JsNum := ⟨fun k => fin k⟩
instance : IntCast JsNum := ⟨fun k => fin k⟩

end JsNum

/-- The numeric library that `model.js` uses: `Math.exp`, `Math.sin`,
`Math.cos`, `Math.PI`, and `fround`, the conversion to single precision that
`new Float32Array(array)` applies to each element. -/
structure JsMath (α : Type) where
  exp : α → α
  sin : α → α
  cos : α → α
  PI : α
  fround : α → α

/-- The `Math` functions on finite arguments, as a numeric library provides
them; `JsMath.ieee` extends them to NaN and the infinities. -/
structure FiniteMath where
  exp : ℚ → ℚ
  sin : ℚ → ℚ
  cos : ℚ → ℚ
  PI : ℚ

/-- `Math.exp`, `Math.sin`, `Math.cos` on the IEEE value classes (ECMAScript
21.3.2): NaN in gives NaN out, `exp(+∞) = +∞`, `exp(-∞) = 0`, and the sine and
cosine of an infinity are NaN. -/
def JsMath.ieee (F : FiniteMath) : JsMath JsNum where
  exp := fun x => match x with
    | .nan => .nan
    | .inf s => if s then .fin 0 else .inf false
    | .fin q => .fin (F.exp q)
  sin := fun x => match x with
    | .fin q => .fin (F.sin q)
    | _ => .nan
  cos := fun x => match x with
    | .fin q => .fin (F.cos q)
    | _ => .nan
  PI := .fin F.PI
  fround := JsNum.fround

/-! ## Data model -/

/-- The `params` object of `main.js` (lines 11-14). -/
structure Params (α : Type) where
  a : α
  n : α
  m : α
  b : α
  phi : α
  Nu : JsNum
  Nr : JsNum
  rLines : JsNum
  uLines : JsNum

/-- The three-element array `[x, y, z]` returned by `surfacePoint`. -/
structure Vec3 (α : Type) where
  x : α
  y : α
  z : α

/-- The fields of a `Model` object.  A buffer handle is `none` for `null` and
`some k` for the buffer object number `k`; the vertex counts are the result of
a JavaScript division, hence rationals. -/
structure Model (α : Type) where
  uLines : List α
  vLines : List α
  uCount : ℚ
  vCount : ℚ
  uVBO : Option ℕ
  vVBO : Option ℕ

namespace Model

variable {α : Type}

/-- The `constructor` (lines 6-15): empty arrays, zero counts, null handles. -/
def constructor : Model α :=
  { uLines := [], vLines := [], uCount := 0, vCount := 0, uVBO := none, vVBO := none }

/-- The sample count `Nr` of line 35: `Math.max(2, p.Nr | 0)`. -/
def effNr (p : Params α) : ℤ := max 2 (JsNum.toInt32 p.Nr)

/-- The sample count `Nu` of line 36: `Math.max(3, p.Nu | 0)`. -/
def effNu (p : Params α) : ℤ := max 3 (JsNum.toInt32 p.Nu)

section Arith

variable [Zero α] [Add α] [Sub α] [Mul α] [Div α] [Neg α] [NatCast α] [IntCast α]

/-- `Model.surfacePoint(r, u, p)` (lines 17-24). -/
def surfacePoint (M : JsMath α) (r u : α) (p : Params α) : Vec3 α :=
  let w := (p.m * M.PI) / p.b
  let z := p.a * M.exp (-p.n * r) * M.sin (w * r + p.phi)
  let x := r * M.cos u
  let y := r * M.sin u
  ⟨x, y, z⟩

/-- The helper `pushSeg` (lines 42-45): append the six floats of a segment. -/
def pushSeg (arr : List α) (p0 p1 : Vec3 α) : List α :=
  (arr ++ [p0.x, p0.y, p0.z]) ++ [p1.x, p1.y, p1.z]

/-- One iteration of the inner ring loop (lines 55-59); the state is the
array under construction and the variable `prev`. -/
def ringStep (M : JsMath α) (p : Params α) (r : α) (Nu : ℤ)
    (st : List α × Option (Vec3 α)) (j : ℕ) : List α × Option (Vec3 α) :=
  let uMin : α := 0
  let uMax : α := M.PI * ((2 : ℕ) : α)
  let s := (j : α) / ((Nu - 1 : ℤ) : α)
  let u := uMin + s * (uMax - uMin)
  let cur := surfacePoint M r u p
  match st.2 with
  | some prev => (pushSeg st.1 prev cur, some cur)
  | none => (st.1, some cur)

/-- One iteration of the outer ring loop (lines 50-60): the radius of ring
`i`, then the inner loop `for (j = 0; j < Nu; j++)` started with
`prev = null`. -/
def ringBody (M : JsMath α) (p : Params α) (rSteps Nu : ℤ) (uData : List α) (i : ℕ) : List α :=
  let rMin : α := 0
  let rMax : α := p.b
  let t : α := if rSteps = 1 then 0 else (i : α) / ((rSteps - 1 : ℤ) : α)
  let r := rMin + t * (rMax - rMin)
  ((List.range Nu.toNat).foldl (ringStep M p r Nu) (uData, none)).1

/-- One iteration of the inner meridian loop (lines 71-75). -/
def meridianStep (M : JsMath α) (p : Params α) (u : α) (Nr : ℤ)
    (st : List α × Option (Vec3 α)) (i : ℕ) : List α × Option (Vec3 α) :=
  let rMin : α := 0
  let rMax : α := p.b
  let s := (i : α) / ((Nr - 1 : ℤ) : α)
  let r := rMin + s * (rMax - rMin)
  let cur := surfacePoint M r u p
  match st.2 with
  | some prev => (pushSeg st.1 prev cur, some cur)
  | none => (st.1, some cur)

/-- One iteration of the outer meridian loop (lines 66-76). -/
def meridianBody (M : JsMath α) (p : Params α) (uSteps Nr : ℤ) (vData : List α) (j : ℕ) : List α :=
  let uMin : α := 0
  let uMax : α := M.PI * ((2 : ℕ) : α)
  let t : α := if uSteps = 1 then 0 else (j : α) / ((uSteps - 1 : ℤ) : α)
  let u := uMin + t * (uMax - uMin)
  ((List.range Nr.toNat).foldl (meridianStep M p u Nr) (vData, none)).1

/-- The array `uData` after the ring loops (lines 48-61); a loop
`for (i = 0; i < rSteps; i++)` runs `rSteps.toNat` times. -/
def ringData (M : JsMath α) (p : Params α) : List α :=
  let rSteps := JsNum.toInt32 p.rLines
  (List.range rSteps.toNat).foldl (ringBody M p rSteps (effNu p)) []

/-- The array `vData` after the meridian loops (lines 64-77). -/
def meridianData (M : JsMath α) (p : Params α) : List α :=
  let uSteps := JsNum.toInt32 p.uLines
  (List.range uSteps.toNat).foldl (meridianBody M p uSteps (effNr p)) []

/-- `build(params)` (lines 27-83): the four array and count fields are
overwritten, the two buffer handles are not touched.  `new Float32Array(uData)`
(lines 79-80) keeps the length and the order of `uData` and converts each
element to single precision. -/
def build (M : JsMath α) (self : Model α) (params : Params α) : Model α :=
  let p := params
  let uData := ringData M p
  let vData := meridianData M p
  let uLines := uData.map M.fround
  let vLines := vData.map M.fround
  { self with
    uLines := uLines
    vLines := vLines
    uCount := (uLines.length : ℚ) / 3
    vCount := (vLines.length : ℚ) / 3 }

end Arith

end Model

/-! ## Completions -/

/-- The error classes a call could raise; `DomainError` is the class the
specification names. -/
inductive JsError where
  | DomainError
  | ResourceError
  | TypeError
  deriving DecidableEq

/-- How a call ends: it returns a value or it throws. -/
inductive Completion (β : Type) where
  | normal (value : β) : Completion β
  | throw (error : JsError) : Completion β

namespace Model

variable {α : Type}

section Arith

variable [Zero α] [Add α] [Sub α] [Mul α] [Div α] [Neg α] [NatCast α] [IntCast α]

/-- The completion of a call `Model.surfacePoint(r, u, p)` on numbers.  Lines
17-24 hold no `throw` and no guard on `b`; reading five properties, the
arithmetic operators and the `Math` functions do not throw on numbers.  The
call therefore always completes normally with the array of line 23. -/
def surfacePointCall (M : JsMath α) (r u : α) (p : Params α) : Completion (Vec3 α) :=
  Completion.normal (surfacePoint M r u p)

/-- The completion of a call `build(params)` on numeric parameters.  Lines
27-83 hold no `throw`; the only calls are to `surfacePoint`, `Array.push` and
the `Float32Array` constructor. -/
def buildCall (M : JsMath α) (self : Model α) (params : Params α) : Completion (Model α) :=
  Completion.normal (build M self params)

end Arith

/-! ## The rendering context -/

/-- A call received by the rendering context. -/
inductive GLCall (α : Type) where
  | createBuffer : GLCall α
  | bindBuffer (buffer : Option ℕ) : GLCall α
  | bufferData (data : List α) : GLCall α

/-- The part of the WebGL context that `upload` drives (an external
interface): the number of buffer objects created so far, the `ARRAY_BUFFER`
binding, the data store of each buffer object, and the calls received.
`createBuffer` hands out a fresh buffer object; a failure to create one is a
fatal error of the context and lies outside the model. -/
structure GLContext (α : Type) where
  created : ℕ
  bound : Option ℕ
  store : ℕ → List α
  calls : List (GLCall α)

namespace GLContext

/-- `gl.createBuffer()`: the new buffer object and the context after the call. -/
def createBuffer (gl : GLContext α) : Option ℕ × GLContext α :=
  (some gl.created,
    { gl with created := gl.created + 1, calls := gl.calls ++ [GLCall.createBuffer] })

/-- `gl.bindBuffer(gl.ARRAY_BUFFER, buffer)`. -/
def bindBuffer (gl : GLContext α) (buffer : Option ℕ) : GLContext α :=
  { gl with bound := buffer, calls := gl.calls ++ [GLCall.bindBuffer buffer] }

/-- `gl.bufferData(gl.ARRAY_BUFFER, data, gl.STATIC_DRAW)`: the data store of
the bound buffer object is replaced (nothing is stored when none is bound). -/
def bufferData (gl : GLContext α) (data : List α) : GLContext α :=
  { gl with
    store := match gl.bound with
      | some k => Function.update gl.store k data
      | none => gl.store
    calls := gl.calls ++ [GLCall.bufferData data] }

/-- How many `createBuffer` calls the context has received. -/
def createCalls (gl : GLContext α) : ℕ :=
  (gl.calls.filter fun c => match c with
    | GLCall.createBuffer => true
    | _ => false).length

end GLContext

/-- `upload(gl)` (lines 85-96); `!this.uVBO` holds exactly when the handle is
`null`. -/
def upload (self : Model α) (gl : GLContext α) : Model α × GLContext α :=
  let r1 := if self.uVBO.isNone then gl.createBuffer else (self.uVBO, gl)
  let r2 := if self.vVBO.isNone then r1.2.createBuffer else (self.vVBO, r1.2)
  let gl1 := r2.2.bindBuffer r1.1
  let gl2 := gl1.bufferData self.uLines
  let gl3 := gl2.bindBuffer r2.1
  let gl4 := gl3.bufferData self.vLines
  let gl5 := gl4.bindBuffer none
  ({ self with uVBO := r1.1, vVBO := r2.1 }, gl5)

/-- A call made by the driver on a `Model` (`rebuildSurface` of `main.js`
makes `build` then `upload`). -/
inductive Op (α : Type) where
  | build (params : Params α) : Op α
  | upload : Op α

section Arith

variable [Zero α] [Add α] [Sub α] [Mul α] [Div α] [Neg α] [NatCast α] [IntCast α]

/-- One driver call on the pair of the model and the context. -/
def step (M : JsMath α) (st : Model α × GLContext α) : Op α → Model α × GLContext α
  | Op.build params => (build M st.1 params, st.2)
  | Op.upload => upload st.1 st.2

/-- A sequence of driver calls, in order. -/
def run (M : JsMath α) (st : Model α × GLContext α) (ops : List (Op α)) : Model α × GLContext α :=
  ops.foldl (step M) st

end Arith

/-- The two handles are both null, or both set and different. -/
def HandlesOk (s : Model α) : Prop :=
  (s.uVBO = none ∧ s.vVBO = none) ∨ ∃ a b : ℕ, s.uVBO = some a ∧ s.vVBO = some b ∧ a ≠ b

/-! ## The arrays as concatenations of segments -/

/-- The six floats of one two-vertex segment. -/
def segFloats (p0 p1 : Vec3 α) : List α := [p0.x, p0.y, p0.z, p1.x, p1.y, p1.z]

/-- The segments joining consecutive samples `pt 0, pt 1, ..., pt k`:
`k` segments, none from the last sample back to the first. -/
def openPolyline (pt : ℕ → Vec3 α) (k : ℕ) : List α :=
  (List.range k).flatMap fun j => segFloats (pt j) (pt (j + 1))

/-- The shape shared by the two inner loops: push a segment from `prev` to the
current sample when `prev` is set, then remember the current sample. -/
def polyStep (pt : ℕ → Vec3 α) (st : List α × Option (Vec3 α)) (j : ℕ) :
    List α × Option (Vec3 α) :=
  match st.2 with
  | some prev => (pushSeg st.1 prev (pt j), some (pt j))
  | none => (st.1, some (pt j))

section Arith

variable [Zero α] [Add α] [Sub α] [Mul α] [Div α] [Neg α] [NatCast α] [IntCast α]

/-- The radius of ring `i` as lines 50-51 compute it. -/
def ringRadius (p : Params α) (rSteps : ℤ) (i : ℕ) : α :=
  (0 : α) + (if rSteps = 1 then (0 : α) else (i : α) / ((rSteps - 1 : ℤ) : α)) * (p.b - 0)

/-- The angle of sample `j` on a ring as lines 55-56 compute it. -/
def ringAngle (M : JsMath α) (Nu : ℤ) (j : ℕ) : α :=
  (0 : α) + ((j : α) / ((Nu - 1 : ℤ) : α)) * (M.PI * ((2 : ℕ) : α) - 0)

/-- The angle of meridian `j` as lines 66-67 compute it. -/
def meridianAngle (M : JsMath α) (uSteps : ℤ) (j : ℕ) : α :=
  (0 : α) + (if uSteps = 1 then (0 : α) else (j : α) / ((uSteps - 1 : ℤ) : α)) *
    (M.PI * ((2 : ℕ) : α) - 0)

/-- The radius of sample `i` on a meridian as lines 71-72 compute it. -/
def meridianRadius (p : Params α) (Nr : ℤ) (i : ℕ) : α :=
  (0 : α) + ((i : α) / ((Nr - 1 : ℤ) : α)) * (p.b - 0)

/-- One ring: the open polyline through the `Nu` samples of ring `i`. -/
def ringOf (M : JsMath α) (p : Params α) (rSteps Nu : ℤ) (i : ℕ) : List α :=
  openPolyline (fun j => surfacePoint M (ringRadius p rSteps i) (ringAngle M Nu j) p)
    (Nu.toNat - 1)

/-- One meridian: the open polyline through the `Nr` samples of meridian `j`. -/
def meridianOf (M : JsMath α) (p : Params α) (uSteps Nr : ℤ) (j : ℕ) : List α :=
  openPolyline (fun i => surfacePoint M (meridianRadius p Nr i) (meridianAngle M uSteps j) p)
    (Nr.toNat - 1)

/-- The meridians that `build` emits, in order, one list of floats each
(before the conversion to single precision). -/
def meridians (M : JsMath α) (p : Params α) : List (List α) :=
  (List.range (JsNum.toInt32 p.uLines).toNat).map
    (meridianOf M p (JsNum.toInt32 p.uLines) (effNr p))

/-- The ring vertices in the order of the specification, with the radius and
the angle as the code computes them: for `i = 0..rLines-1` and, within each
`i`, for `j = 0..Nu-2`, the vertex at `(r_i, u_j)` followed by the vertex at
`(r_i, u_{j+1})`, where `r_i = 0 + t_i * (b - 0)`, `t_i = i / (rLines - 1)`
(`t_i = 0` when `rLines = 1`) and `u_j = 0 + (j / (Nu - 1)) * (PI * 2 - 0)`. -/
def ringSegments (M : JsMath α) (p : Params α) (rLines Nu : ℕ) : List α :=
  (List.range rLines).flatMap fun i =>
    (List.range (Nu - 1)).flatMap fun j =>
      [(surfacePoint M (ringRadius p rLines i) (ringAngle M Nu j) p).x,
       (surfacePoint M (ringRadius p rLines i) (ringAngle M Nu j) p).y,
       (surfacePoint M (ringRadius p rLines i) (ringAngle M Nu j) p).z] ++
      [(surfacePoint M (ringRadius p rLines i) (ringAngle M Nu (j + 1)) p).x,
       (surfacePoint M (ringRadius p rLines i) (ringAngle M Nu (j + 1)) p).y,
       (surfacePoint M (ringRadius p rLines i) (ringAngle M Nu (j + 1)) p).z]

/-- The meridian vertices in the order of the specification, with the angle
and the radius as the code computes them: for `j = 0..uLines-1` and, within
each `j`, for `i = 0..Nr-2`, the vertex at `(r_i, u_j)` followed by the vertex
at `(r_{i+1}, u_j)`, where `u_j = 0 + t_j * (PI * 2 - 0)`,
`t_j = j / (uLines - 1)` (`t_j = 0` when `uLines = 1`) and
`r_i = 0 + (i / (Nr - 1)) * (b - 0)`. -/
def meridianSegments (M : JsMath α) (p : Params α) (uLines Nr : ℕ) : List α :=
  (List.range uLines).flatMap fun j =>
    (List.range (Nr - 1)).flatMap fun i =>
      [(surfacePoint M (meridianRadius p Nr i) (meridianAngle M uLines j) p).x,
       (surfacePoint M (meridianRadius p Nr i) (meridianAngle M uLines j) p).y,
       (surfacePoint M (meridianRadius p Nr i) (meridianAngle M uLines j) p).z] ++
      [(surfacePoint M (meridianRadius p Nr (i + 1)) (meridianAngle M uLines j) p).x,
       (surfacePoint M (meridianRadius p Nr (i + 1)) (meridianAngle M uLines j) p).y,
       (surfacePoint M (meridianRadius p Nr (i + 1)) (meridianAngle M uLines j) p).z]

end Arith

/-- The three floats of a vertex. -/
def vertexFloats (v : Vec3 α) : List α := [v.x, v.y, v.z]

/-- A flat vertex array all of whose vertices have the `z` component NaN. -/
def AllZNaN (l : List JsNum) : Prop :=
  ∃ vs : List (Vec3 JsNum), (∀ v ∈ vs, v.z = JsNum.nan) ∧ l = vs.flatMap vertexFloats

/-! ## The arrays in the words of the specification -/

section Spec

variable [Field α]

/-- The radius `r_i = b * i / (rLines - 1)` of ring `i` when `rLines > 1`,
and `0` when `rLines = 1`. -/
def specRingRadius (p : Params α) (rLines i : ℕ) : α :=
  if 1 < rLines then p.b * (i : α) / ((rLines : α) - 1) else 0

/-- The angle `u_j = 2 * pi * j / (Nu - 1)` of sample `j` on a ring. -/
def specRingAngle (M : JsMath α) (Nu j : ℕ) : α :=
  2 * M.PI * (j : α) / ((Nu : α) - 1)

/-- The ring array of the specification: for `i = 0..rLines-1` and, within
each `i`, for `j = 0..Nu-2`, the vertex at `(r_i, u_j)` followed by the vertex
at `(r_i, u_{j+1})`. -/
def ringSpec (M : JsMath α) (p : Params α) (rLines Nu : ℕ) : List α :=
  (List.range rLines).flatMap fun i =>
    (List.range (Nu - 1)).flatMap fun j =>
      vertexFloats (surfacePoint M (specRingRadius p rLines i) (specRingAngle M Nu j) p) ++
        vertexFloats (surfacePoint M (specRingRadius p rLines i) (specRingAngle M Nu (j + 1)) p)

/-- The angle `u_j = 2 * pi * j / (uLines - 1)` of meridian `j` when
`uLines > 1`, and `0` when `uLines = 1`. -/
def specMeridianAngle (M : JsMath α) (uLines j : ℕ) : α :=
  if 1 < uLines then 2 * M.PI * (j : α) / ((uLines : α) - 1) else 0

/-- The radius `r_i = b * i / (Nr - 1)` of sample `i` on a meridian. -/
def specMeridianRadius (p : Params α) (Nr i : ℕ) : α :=
  p.b * (i : α) / ((Nr : α) - 1)

/-- The meridian array of the specification: for `j = 0..uLines-1` and,
within each `j`, for `i = 0..Nr-2`, the vertex at `(r_i, u_j)` followed by the
vertex at `(r_{i+1}, u_j)`. -/
def meridianSpec (M : JsMath α) (p : Params α) (uLines Nr : ℕ) : List α :=
  (List.range uLines).flatMap fun j =>
    (List.range (Nr - 1)).flatMap fun i =>
      vertexFloats
          (surfacePoint M (specMeridianRadius p Nr i) (specMeridianAngle M uLines j) p) ++
        vertexFloats
          (surfacePoint M (specMeridianRadius p Nr (i + 1)) (specMeridianAngle M uLines j) p)

end Spec

end Model

/-- The parameter object of `main.js` (lines 11-14), over any field. -/
def params (α : Type) [Field α] : Params α :=
  { a := 4, n := 1 / 2, m := 6, b := 6, phi := 0,
    Nu := JsNum.fin 120, Nr := JsNum.fin 120, rLines := JsNum.fin 40, uLines := JsNum.fin 40 }

/-- A stand-in numeric library on finite values, used to evaluate the model at
concrete inputs: truncated power series for `exp`, `sin` and `cos`, and for
`PI` the double nearest to π. -/
def FiniteMath.series : FiniteMath where
  exp := fun x => ((List.range 16).map fun k => x ^ k / (k.factorial : ℚ)).sum
  sin := fun x =>
    ((List.range 8).map fun k => (-1) ^ k * x ^ (2 * k + 1) / ((2 * k + 1).factorial : ℚ)).sum
  cos := fun x =>
    ((List.range 8).map fun k => (-1) ^ k * x ^ (2 * k) / ((2 * k).factorial : ℚ)).sum
  PI := 884279719003555 / 281474976710656

/-- The double nearest to `0.1`, the value of the literal `0.1`. -/
def double_0_1 : ℚ := 3602879701896397 / 36028797018963968

/-- The single-precision number nearest to `0.1`. -/
def single_0_1 : ℚ := 13421773 / 134217728

/-- Parameters over the IEEE value classes with `b = 0.1`, two rings of two
segments and one meridian of one segment. -/
def paramsTenth : Params JsNum :=
  { a := JsNum.fin 4, n := JsNum.fin (1 / 2), m := JsNum.fin 6, b := JsNum.fin double_0_1,
    phi := JsNum.fin 0, Nu := JsNum.fin 3, Nr := JsNum.fin 2, rLines := JsNum.fin 2,
    uLines := JsNum.fin 1 }

/-! ## Lemmas on the loops -/

namespace Model

variable {α : Type}

theorem effNu_ge (p : Params α) : 3 ≤ effNu p := le_max_left _ _

theorem effNr_ge (p : Params α) : 2 ≤ effNr p := le_max_left _ _

theorem pushSeg_eq (arr : List α) (p0 p1 : Vec3 α) :
    pushSeg arr p0 p1 = arr ++ segFloats p0 p1 := by
  simp [pushSeg, segFloats]

theorem length_segFloats (p0 p1 : Vec3 α) : (segFloats p0 p1).length = 6 := rfl

theorem length_openPolyline (pt : ℕ → Vec3 α) (k : ℕ) :
    (openPolyline pt k).length = 6 * k := by
  induction k with
  | zero => simp [openPolyline]
  | succ k ih =>
    have ih' : (List.flatMap (List.range k) fun j => segFloats (pt j) (pt (j + 1))).length
        = 6 * k := ih
    simp only [openPolyline, List.range_succ, List.flatMap_append, List.length_append,
      List.flatMap_singleton, length_segFloats, ih']
    ring

theorem openPolyline_succ (pt : ℕ → Vec3 α) (k : ℕ) :
    openPolyline pt (k + 1) = openPolyline pt k ++ segFloats (pt k) (pt (k + 1)) := by
  simp [openPolyline, List.range_succ, List.flatMap_append]

/-- The inner loop run over `k + 1` samples appends the `k` segments of the
open polyline and leaves `prev` at the last sample. -/
theorem foldl_polyStep (pt : ℕ → Vec3 α) (arr : List α) (k : ℕ) :
    (List.range (k + 1)).foldl (polyStep pt) (arr, none)
      = (arr ++ openPolyline pt k, some (pt k)) := by
  induction k with
  | zero => simp [polyStep, openPolyline, List.range_succ]
  | succ k ih =>
    rw [List.range_succ, List.foldl_append, ih, openPolyline_succ]
    simp [polyStep, pushSeg_eq]

/-- An accumulating loop whose body appends `f i` builds the concatenation. -/
theorem foldl_append_flatMap {ι : Type} (f : ι → List α) (l : List ι) (init : List α) :
    l.foldl (fun acc i => acc ++ f i) init = init ++ l.flatMap f := by
  induction l generalizing init with
  | nil => simp
  | cons a l ih => simp [ih, List.append_assoc]

theorem length_flatMap_const {ι : Type} (f : ι → List α) (l : List ι) (c : ℕ)
    (h : ∀ i, (f i).length = c) : (l.flatMap f).length = l.length * c := by
  induction l with
  | nil => simp
  | cons a l ih => simp [List.flatMap_cons, h, ih, Nat.succ_mul, Nat.add_comm]

section Arith

variable [Zero α] [Add α] [Sub α] [Mul α] [Div α] [Neg α] [NatCast α] [IntCast α]

theorem ringStep_eq (M : JsMath α) (p : Params α) (r : α) (Nu : ℤ) :
    ringStep M p r Nu = polyStep (fun j => surfacePoint M r (ringAngle M Nu j) p) := by
  funext st j
  rfl

theorem meridianStep_eq (M : JsMath α) (p : Params α) (u : α) (Nr : ℤ) :
    meridianStep M p u Nr = polyStep (fun i => surfacePoint M (meridianRadius p Nr i) u p) := by
  funext st i
  rfl

theorem ringBody_eq (M : JsMath α) (p : Params α) (rSteps Nu : ℤ) (hNu : 1 ≤ Nu)
    (uData : List α) (i : ℕ) :
    ringBody M p rSteps Nu uData i = uData ++ ringOf M p rSteps Nu i := by
  obtain ⟨k, hk⟩ : ∃ k, Nu.toNat = k + 1 := ⟨Nu.toNat - 1, by omega⟩
  have h := foldl_polyStep
    (fun j => surfacePoint M (ringRadius p rSteps i) (ringAngle M Nu j) p) uData k
  simp only [ringBody, ringOf, ringStep_eq, hk, Nat.add_sub_cancel]
  exact congrArg Prod.fst h

theorem meridianBody_eq (M : JsMath α) (p : Params α) (uSteps Nr : ℤ) (hNr : 1 ≤ Nr)
    (vData : List α) (j : ℕ) :
    meridianBody M p uSteps Nr vData j = vData ++ meridianOf M p uSteps Nr j := by
  obtain ⟨k, hk⟩ : ∃ k, Nr.toNat = k + 1 := ⟨Nr.toNat - 1, by omega⟩
  have h := foldl_polyStep
    (fun i => surfacePoint M (meridianRadius p Nr i) (meridianAngle M uSteps j) p) vData k
  simp only [meridianBody, meridianOf, meridianStep_eq, hk, Nat.add_sub_cancel]
  exact congrArg Prod.fst h

/-- The ring array is the concatenation of the rings, in order. -/
theorem ringData_eq (M : JsMath α) (p : Params α) :
    ringData M p = (List.range (JsNum.toInt32 p.rLines).toNat).flatMap
      (ringOf M p (JsNum.toInt32 p.rLines) (effNu p)) := by
  have hb : ringBody M p (JsNum.toInt32 p.rLines) (effNu p)
      = fun acc i => acc ++ ringOf M p (JsNum.toInt32 p.rLines) (effNu p) i := by
    funext acc i
    exact ringBody_eq M p _ _ (by have := effNu_ge p; omega) acc i
  simp only [ringData, hb, foldl_append_flatMap, List.nil_append]

/-- The meridian array is the concatenation of the meridians, in order. -/
theorem meridianData_eq (M : JsMath α) (p : Params α) :
    meridianData M p = (List.range (JsNum.toInt32 p.uLines).toNat).flatMap
      (meridianOf M p (JsNum.toInt32 p.uLines) (effNr p)) := by
  have hb : meridianBody M p (JsNum.toInt32 p.uLines) (effNr p)
      = fun acc j => acc ++ meridianOf M p (JsNum.toInt32 p.uLines) (effNr p) j := by
    funext acc j
    exact meridianBody_eq M p _ _ (by have := effNr_ge p; omega) acc j
  simp only [meridianData, hb, foldl_append_flatMap, List.nil_append]

theorem build_uLines (M : JsMath α) (s : Model α) (p : Params α) :
    (build M s p).uLines = (ringData M p).map M.fround := rfl

theorem build_vLines (M : JsMath α) (s : Model α) (p : Params α) :
    (build M s p).vLines = (meridianData M p).map M.fround := rfl

theorem build_uLines_of_id (M : JsMath α) (s : Model α) (p : Params α) (h : M.fround = id) :
    (build M s p).uLines = ringData M p := by
  rw [build_uLines, h, List.map_id]

theorem build_vLines_of_id (M : JsMath α) (s : Model α) (p : Params α) (h : M.fround = id) :
    (build M s p).vLines = meridianData M p := by
  rw [build_vLines, h, List.map_id]

/-- The ring array before the conversion, written as the double
concatenation over rings and segments. -/
theorem ringData_eq_ringSegments (M : JsMath α) (p : Params α) (rLines Nu : ℕ)
    (hr : JsNum.toInt32 p.rLines = rLines) (hN : effNu p = Nu) :
    ringData M p = ringSegments M p rLines Nu := by
  rw [ringData_eq, hr, hN]
  rfl

/-- The meridian array before the conversion, written as the double
concatenation over meridians and segments. -/
theorem meridianData_eq_meridianSegments (M : JsMath α) (p : Params α) (uLines Nr : ℕ)
    (hu : JsNum.toInt32 p.uLines = uLines) (hN : effNr p = Nr) :
    meridianData M p = meridianSegments M p uLines Nr := by
  rw [meridianData_eq, hu, hN]
  rfl

theorem length_ringData (M : JsMath α) (p : Params α) :
    (ringData M p).length = 6 * ((JsNum.toInt32 p.rLines).toNat * ((effNu p).toNat - 1)) := by
  rw [ringData_eq, length_flatMap_const _ _ (6 * ((effNu p).toNat - 1))
    (fun i => by unfold ringOf; exact length_openPolyline _ _), List.length_range]
  ring

theorem length_meridianData (M : JsMath α) (p : Params α) :
    (meridianData M p).length
      = 6 * ((JsNum.toInt32 p.uLines).toNat * ((effNr p).toNat - 1)) := by
  rw [meridianData_eq, length_flatMap_const _ _ (6 * ((effNr p).toNat - 1))
    (fun i => by unfold meridianOf; exact length_openPolyline _ _), List.length_range]
  ring

end Arith

end Model

/-! ## The 32-bit conversion on in-range values -/

namespace JsNum

theorem truncate_intCast (k : ℤ) : truncate (k : ℚ) = k := by
  unfold truncate
  split
  · exact Int.floor_intCast k
  · rw [← Int.cast_neg, Int.floor_intCast]
    omega

theorem wrapInt32_of_range (k : ℤ) (hlo : -2 ^ 31 ≤ k) (hhi : k < 2 ^ 31) :
    wrapInt32 k = k := by
  unfold wrapInt32
  norm_num at hlo hhi ⊢
  split <;> omega

/-- On an integer of the signed 32-bit range `x | 0` is the identity. -/
theorem toInt32_int (k : ℤ) (hlo : -2 ^ 31 ≤ k) (hhi : k < 2 ^ 31) :
    toInt32 (fin (k : ℚ)) = k := by
  simp only [toInt32, truncate_intCast, wrapInt32_of_range k hlo hhi]

theorem toInt32_nat (k : ℕ) (hhi : k < 2 ^ 31) : toInt32 (fin (k : ℚ)) = k := by
  have h := toInt32_int (k : ℤ) (by have : (0 : ℤ) ≤ k := Int.natCast_nonneg k; omega)
    (by exact_mod_cast hhi)
  simpa using h

/-- The truncation of a value strictly between `-2^31 - 1` and `2^31` lies in
the signed 32-bit range. -/
theorem truncate_range (x : ℚ) (hlo : -2 ^ 31 - 1 < x) (hhi : x < 2 ^ 31) :
    -2 ^ 31 ≤ truncate x ∧ truncate x < 2 ^ 31 := by
  unfold truncate
  split
  · rename_i h0
    have h1 : (0 : ℤ) ≤ ⌊x⌋ := Int.floor_nonneg.mpr h0
    have h2 : ⌊x⌋ < 2 ^ 31 := by
      rw [Int.floor_lt]
      exact_mod_cast hhi
    constructor <;> omega
  · rename_i h0
    have hx : x < 0 := not_le.mp h0
    have h1 : (0 : ℤ) ≤ ⌊-x⌋ := Int.floor_nonneg.mpr (by linarith)
    have h2 : ⌊-x⌋ < 2 ^ 31 + 1 := by
      rw [Int.floor_lt]
      push_cast
      linarith
    constructor <;> omega

/-- For a value in that range, clamping `x | 0` from below by a positive
bound agrees with clamping the floor. -/
theorem max_toInt32_eq_max_floor (c : ℤ) (hc : 0 < c) (x : ℚ) (hlo : -2 ^ 31 - 1 < x)
    (hhi : x < 2 ^ 31) : max c (toInt32 (fin x)) = max c ⌊x⌋ := by
  obtain ⟨h1, h2⟩ := truncate_range x hlo hhi
  simp only [toInt32, wrapInt32_of_range _ h1 h2]
  unfold truncate
  split
  · rfl
  · rename_i h0
    have hx : x < 0 := not_le.mp h0
    have h3 : (0 : ℤ) ≤ ⌊-x⌋ := Int.floor_nonneg.mpr (by linarith)
    have h4 : ⌊x⌋ < 0 := by
      rw [Int.floor_lt]
      exact_mod_cast hx
    rw [max_eq_left (by omega), max_eq_left (by omega)]

end JsNum

/-! ## Lemmas relating the loops to the specification's formulas -/

namespace Model

variable {α : Type}

theorem segFloats_eq (p0 p1 : Vec3 α) :
    segFloats p0 p1 = vertexFloats p0 ++ vertexFloats p1 := rfl

theorem effNu_int (p : Params α) (Nu : ℤ) (hN : p.Nu = JsNum.fin Nu)
    (hlo : -2 ^ 31 ≤ Nu) (hhi : Nu < 2 ^ 31) : effNu p = ((max 3 Nu).toNat : ℤ) := by
  unfold effNu
  rw [hN, JsNum.toInt32_int Nu hlo hhi, Int.toNat_of_nonneg]
  exact le_trans (by norm_num) (le_max_left _ _)

theorem effNr_int (p : Params α) (Nr : ℤ) (hN : p.Nr = JsNum.fin Nr)
    (hlo : -2 ^ 31 ≤ Nr) (hhi : Nr < 2 ^ 31) : effNr p = ((max 2 Nr).toNat : ℤ) := by
  unfold effNr
  rw [hN, JsNum.toInt32_int Nr hlo hhi, Int.toNat_of_nonneg]
  exact le_trans (by norm_num) (le_max_left _ _)

section OverField

variable [Field α]

theorem ringRadius_eq_spec (p : Params α) (rLines i : ℕ) (h : 1 ≤ rLines) :
    ringRadius p (rLines : ℤ) i = specRingRadius p rLines i := by
  unfold ringRadius specRingRadius
  by_cases h1 : rLines = 1
  · subst h1
    simp
  · have h2 : 1 < rLines := by omega
    have h3 : ((rLines : ℤ) = 1) ↔ False := by
      constructor
      · intro h4
        exact h1 (by exact_mod_cast h4)
      · exact False.elim
    simp only [h3, if_false, h2, if_true]
    push_cast
    ring

theorem ringAngle_eq_spec (M : JsMath α) (Nu j : ℕ) :
    ringAngle M (Nu : ℤ) j = specRingAngle M Nu j := by
  unfold ringAngle specRingAngle
  push_cast
  ring

theorem meridianAngle_eq_spec (M : JsMath α) (uLines j : ℕ) (h : 1 ≤ uLines) :
    meridianAngle M (uLines : ℤ) j = specMeridianAngle M uLines j := by
  unfold meridianAngle specMeridianAngle
  by_cases h1 : uLines = 1
  · subst h1
    simp
  · have h2 : 1 < uLines := by omega
    have h3 : ((uLines : ℤ) = 1) ↔ False := by
      constructor
      · intro h4
        exact h1 (by exact_mod_cast h4)
      · exact False.elim
    simp only [h3, if_false, h2, if_true]
    push_cast
    ring

theorem meridianRadius_eq_spec (p : Params α) (Nr i : ℕ) :
    meridianRadius p (Nr : ℤ) i = specMeridianRadius p Nr i := by
  unfold meridianRadius specMeridianRadius
  push_cast
  ring

/-- The ring array that the loops build is the ring array of the
specification, for counts that the loops see unchanged. -/
theorem ringData_eq_ringSpec (M : JsMath α) (p : Params α) (rLines Nu : ℕ)
    (hr : JsNum.toInt32 p.rLines = rLines) (hN : effNu p = Nu) (h1 : 1 ≤ rLines) :
    ringData M p = ringSpec M p rLines Nu := by
  rw [ringData_eq, hr, hN]
  simp only [Int.toNat_ofNat, ringSpec]
  apply List.flatMap_congr
  intro i _
  unfold ringOf openPolyline
  simp only [Int.toNat_ofNat, ringRadius_eq_spec p rLines i h1, ringAngle_eq_spec, segFloats_eq]

/-- The meridian array that the loops build is the meridian array of the
specification, for counts that the loops see unchanged. -/
theorem meridianData_eq_meridianSpec (M : JsMath α) (p : Params α) (uLines Nr : ℕ)
    (hu : JsNum.toInt32 p.uLines = uLines) (hN : effNr p = Nr) (h1 : 1 ≤ uLines) :
    meridianData M p = meridianSpec M p uLines Nr := by
  rw [meridianData_eq, hu, hN]
  simp only [Int.toNat_ofNat, meridianSpec]
  apply List.flatMap_congr
  intro j _
  unfold meridianOf openPolyline
  simp only [Int.toNat_ofNat, meridianAngle_eq_spec M uLines j h1, meridianRadius_eq_spec,
    segFloats_eq]

theorem length_ringSpec (M : JsMath α) (p : Params α) (rLines Nu : ℕ) :
    (ringSpec M p rLines Nu).length = rLines * ((Nu - 1) * 6) := by
  unfold ringSpec
  rw [length_flatMap_const _ _ ((Nu - 1) * 6), List.length_range]
  intro i
  rw [length_flatMap_const _ _ 6, List.length_range]
  intro j
  rfl

theorem length_meridianSpec (M : JsMath α) (p : Params α) (uLines Nr : ℕ) :
    (meridianSpec M p uLines Nr).length = uLines * ((Nr - 1) * 6) := by
  unfold meridianSpec
  rw [length_flatMap_const _ _ ((Nr - 1) * 6), List.length_range]
  intro j
  rw [length_flatMap_const _ _ 6, List.length_range]
  intro i
  rfl

end OverField

end Model

/-! ## Lemmas on `upload` -/

namespace Model

variable {α : Type}

theorem createCalls_createBuffer (gl : GLContext α) :
    gl.createBuffer.2.createCalls = gl.createCalls + 1 := by
  simp [GLContext.createBuffer, GLContext.createCalls, List.filter_append]

theorem createCalls_bindBuffer (gl : GLContext α) (h : Option ℕ) :
    (gl.bindBuffer h).createCalls = gl.createCalls := by
  simp [GLContext.bindBuffer, GLContext.createCalls, List.filter_append]

theorem createCalls_bufferData (gl : GLContext α) (data : List α) :
    (gl.bufferData data).createCalls = gl.createCalls := by
  simp [GLContext.bufferData, GLContext.createCalls, List.filter_append]

/-- The handles after `upload`: a null handle is replaced by a new buffer
object, a set handle is kept. -/
theorem upload_handles (s : Model α) (gl : GLContext α) :
    (upload s gl).1.uVBO = (if s.uVBO.isNone then some gl.created else s.uVBO)
      ∧ (upload s gl).1.vVBO
          = (if s.vVBO.isNone then
              some (if s.uVBO.isNone then gl.created + 1 else gl.created)
             else s.vVBO) := by
  unfold upload
  cases hu : s.uVBO <;> cases hv : s.vVBO <;> simp [GLContext.createBuffer]

theorem upload_createCalls (s : Model α) (gl : GLContext α) :
    (upload s gl).2.createCalls
      = gl.createCalls + (if s.uVBO.isNone then 1 else 0) + (if s.vVBO.isNone then 1 else 0) := by
  unfold upload
  cases hu : s.uVBO <;> cases hv : s.vVBO <;>
    simp [createCalls_bindBuffer, createCalls_bufferData, createCalls_createBuffer]

theorem upload_arrays (s : Model α) (gl : GLContext α) :
    (upload s gl).1.uLines = s.uLines ∧ (upload s gl).1.vLines = s.vLines := ⟨rfl, rfl⟩

/-- After `upload` the buffer behind `vVBO` holds `vLines`, and the buffer
behind `uVBO` holds `uLines` when the two handles differ. -/
theorem upload_store (s : Model α) (gl : GLContext α) (a b : ℕ)
    (ha : (upload s gl).1.uVBO = some a) (hb : (upload s gl).1.vVBO = some b) (hab : a ≠ b) :
    (upload s gl).2.store a = s.uLines ∧ (upload s gl).2.store b = s.vLines := by
  have h1 : (upload s gl).2.store
      = Function.update (Function.update
          ((if s.vVBO.isNone then
              (if s.uVBO.isNone then gl.createBuffer else (s.uVBO, gl)).2.createBuffer
            else (s.vVBO, (if s.uVBO.isNone then gl.createBuffer else (s.uVBO, gl)).2)).2.store)
          a s.uLines) b s.vLines := by
    have ha' := ha
    have hb' := hb
    unfold upload at ha' hb' ⊢
    simp only at ha' hb'
    simp only [GLContext.bindBuffer, GLContext.bufferData, ha', hb']
  rw [h1]
  constructor
  · rw [Function.update_noteq hab, Function.update_same]
  · rw [Function.update_same]

theorem upload_handlesOk (s : Model α) (gl : GLContext α) (h : HandlesOk s) :
    ∃ a b : ℕ, (upload s gl).1.uVBO = some a ∧ (upload s gl).1.vVBO = some b ∧ a ≠ b := by
  obtain ⟨hu, hv⟩ := upload_handles s gl
  rcases h with ⟨h1, h2⟩ | ⟨a, b, h1, h2, hab⟩
  · refine ⟨gl.created, gl.created + 1, ?_, ?_, by omega⟩
    · rw [hu, h1]; rfl
    · rw [hv, h1, h2]; rfl
  · refine ⟨a, b, ?_, ?_, hab⟩
    · rw [hu, h1]; rfl
    · rw [hv, h2]; rfl

section Arith

variable [Zero α] [Add α] [Sub α] [Mul α] [Div α] [Neg α] [NatCast α] [IntCast α]

/-- Once both handles are set, no sequence of `build` and `upload` calls
changes them or calls `createBuffer`. -/
theorem run_handles (M : JsMath α) (ops : List (Op α)) (st : Model α × GLContext α) (a b : ℕ)
    (ha : st.1.uVBO = some a) (hb : st.1.vVBO = some b) :
    (run M st ops).1.uVBO = some a ∧ (run M st ops).1.vVBO = some b
      ∧ (run M st ops).2.createCalls = st.2.createCalls := by
  induction ops generalizing st with
  | nil => exact ⟨ha, hb, rfl⟩
  | cons op ops ih =>
    cases op with
    | build params =>
      exact ih (build M st.1 params, st.2) ha hb
    | upload =>
      obtain ⟨hu, hv⟩ := upload_handles st.1 st.2
      have hc := upload_createCalls st.1 st.2
      rw [ha] at hu hc
      rw [hb] at hv hc
      have h := ih (upload st.1 st.2) hu hv
      refine ⟨h.1, h.2.1, ?_⟩
      rw [show (run M st (Op.upload :: ops)) = run M (upload st.1 st.2) ops from rfl, h.2.2, hc]
      simp

theorem run_handlesOk (M : JsMath α) (ops : List (Op α)) (st : Model α × GLContext α)
    (h : HandlesOk st.1) : HandlesOk (run M st ops).1 := by
  induction ops generalizing st with
  | nil => exact h
  | cons op ops ih =>
    cases op with
    | build params => exact ih (build M st.1 params, st.2) h
    | upload => exact ih (upload st.1 st.2) (Or.inr (upload_handlesOk st.1 st.2 h))

theorem run_append (M : JsMath α) (ops ops2 : List (Op α)) (st : Model α × GLContext α) :
    run M st (ops ++ ops2) = run M (run M st ops) ops2 := by
  simp [run, List.foldl_append]

end Arith

end Model

/-! ## Lemmas on the seam between the first and the last meridian -/

namespace JsNum

/-- Wrapping never increases a nonnegative integer. -/
theorem wrapInt32_le (k : ℤ) (hk : 0 ≤ k) : wrapInt32 k ≤ k := by
  unfold wrapInt32
  norm_num
  split <;> omega

theorem toInt32_int_le (k : ℤ) (hk : 0 ≤ k) : toInt32 (fin (k : ℚ)) ≤ k := by
  simp only [toInt32, truncate_intCast]
  exact wrapInt32_le k hk

end JsNum

namespace Model

theorem meridianAngle_first (n : ℤ) :
    meridianAngle (⟨Real.exp, Real.sin, Real.cos, Real.pi, id⟩ : JsMath ℝ) n 0 = 0 := by
  unfold meridianAngle
  split <;> simp

theorem meridianAngle_last (n : ℤ) (hn : 2 ≤ n) :
    meridianAngle (⟨Real.exp, Real.sin, Real.cos, Real.pi, id⟩ : JsMath ℝ) n (n.toNat - 1)
      = 2 * Real.pi := by
  unfold meridianAngle
  have h1 : ¬ n = 1 := by omega
  have h2 : ((n.toNat - 1 : ℕ) : ℝ) = ((n - 1 : ℤ) : ℝ) := by
    have h3 : ((n.toNat - 1 : ℕ) : ℤ) = n - 1 := by omega
    rw [← h3]
    norm_cast
  have h4 : ((n - 1 : ℤ) : ℝ) ≠ 0 := by
    have : (n - 1 : ℤ) ≠ 0 := by omega
    exact_mod_cast this
  rw [if_neg h1, h2, div_self h4]
  push_cast
  ring

/-- The vertices at the angles `2π` and `0` coincide. -/
theorem surfacePoint_two_pi (r : ℝ) (p : Params ℝ) :
    surfacePoint ⟨Real.exp, Real.sin, Real.cos, Real.pi, id⟩ r (2 * Real.pi) p
      = surfacePoint ⟨Real.exp, Real.sin, Real.cos, Real.pi, id⟩ r 0 p := by
  simp [surfacePoint, Real.cos_two_pi, Real.sin_two_pi]

/-- The last meridian repeats the first one. -/
theorem meridianOf_last_eq_first (p : Params ℝ) (n Nr : ℤ) (hn : 1 ≤ n) :
    meridianOf ⟨Real.exp, Real.sin, Real.cos, Real.pi, id⟩ p n Nr (n.toNat - 1)
      = meridianOf ⟨Real.exp, Real.sin, Real.cos, Real.pi, id⟩ p n Nr 0 := by
  by_cases h1 : n = 1
  · subst h1
    rfl
  · unfold meridianOf
    rw [meridianAngle_last n (by omega), meridianAngle_first]
    simp only [surfacePoint_two_pi]

variable {α : Type} [Zero α] [Add α] [Sub α] [Mul α] [Div α] [Neg α] [NatCast α] [IntCast α]

theorem length_meridianOf (M : JsMath α) (p : Params α) (n Nr : ℤ) (j : ℕ) :
    (meridianOf M p n Nr j).length = 6 * (Nr.toNat - 1) := by
  unfold meridianOf
  exact length_openPolyline _ _

theorem meridianData_eq_flatten (M : JsMath α) (p : Params α) :
    meridianData M p = (meridians M p).flatten := by
  rw [meridianData_eq, meridians, List.flatMap_def]

/-- With at least one meridian, the array starts with the first meridian and
ends with the last one. -/
theorem meridianData_ends (M : JsMath α) (p : Params α) (k : ℕ)
    (hk : (JsNum.toInt32 p.uLines).toNat = k + 1) :
    (∃ tl, meridianData M p
        = meridianOf M p (JsNum.toInt32 p.uLines) (effNr p) 0 ++ tl)
      ∧ (∃ front, meridianData M p
          = front ++ meridianOf M p (JsNum.toInt32 p.uLines) (effNr p) k) := by
  rw [meridianData_eq, hk]
  constructor
  · rw [List.range_succ_eq_map, List.flatMap_cons]
    exact ⟨_, rfl⟩
  · rw [List.range_succ, List.flatMap_append, List.flatMap_singleton]
    exact ⟨_, rfl⟩

end Model

/-! ## Lemmas on a zero `b` -/

namespace JsNum

/-- Anything divided by zero is NaN or an infinity. -/
theorem div_zero_cases (x : JsNum) : x / fin 0 = nan ∨ ∃ s, x / fin 0 = inf s := by
  show div x (fin 0) = nan ∨ ∃ s, div x (fin 0) = inf s
  cases x with
  | nan => exact Or.inl rfl
  | inf s => exact Or.inr ⟨_, rfl⟩
  | fin q =>
    by_cases hq : q = 0
    · left
      simp [div, hq]
    · right
      exact ⟨isNeg q, by simp [div, hq]⟩

/-- NaN or an infinity, multiplied by anything, is NaN or an infinity. -/
theorem mul_cases (w r : JsNum) (hw : w = nan ∨ ∃ s, w = inf s) :
    w * r = nan ∨ ∃ s, w * r = inf s := by
  show mul w r = nan ∨ ∃ s, mul w r = inf s
  rcases hw with rfl | ⟨s, rfl⟩
  · left
    cases r <;> rfl
  · cases r with
    | nan => exact Or.inl rfl
    | inf t => exact Or.inr ⟨_, rfl⟩
    | fin q =>
      by_cases hq : q = 0
      · left
        simp [mul, hq]
      · right
        exact ⟨xor s (isNeg q), by simp [mul, hq]⟩

/-- NaN or an infinity, plus anything, is NaN or an infinity. -/
theorem add_cases (w c : JsNum) (hw : w = nan ∨ ∃ s, w = inf s) :
    w + c = nan ∨ ∃ s, w + c = inf s := by
  show add w c = nan ∨ ∃ s, add w c = inf s
  rcases hw with rfl | ⟨s, rfl⟩
  · left
    cases c <;> rfl
  · cases c with
    | nan => exact Or.inl rfl
    | inf t =>
      by_cases hst : s = t
      · right
        exact ⟨s, by simp [add, hst]⟩
      · left
        simp [add, hst]
    | fin q => exact Or.inr ⟨_, rfl⟩

theorem sin_cases (F : FiniteMath) (w : JsNum) (hw : w = nan ∨ ∃ s, w = inf s) :
    (JsMath.ieee F).sin w = nan := by
  rcases hw with rfl | ⟨s, rfl⟩ <;> rfl

theorem mul_nan (x : JsNum) : x * nan = nan := by
  show mul x nan = nan
  cases x <;> rfl

end JsNum

namespace Model

/-- With `b = 0` the `z` component of every surface point is NaN. -/
theorem surfacePoint_z_nan (F : FiniteMath) (r u : JsNum) (p : Params JsNum)
    (hb : p.b = JsNum.fin 0) : (surfacePoint (JsMath.ieee F) r u p).z = JsNum.nan := by
  show p.a * (JsMath.ieee F).exp (-p.n * r)
      * (JsMath.ieee F).sin (p.m * (JsMath.ieee F).PI / p.b * r + p.phi) = JsNum.nan
  rw [hb, JsNum.sin_cases F _
    (JsNum.add_cases _ _ (JsNum.mul_cases _ _ (JsNum.div_zero_cases _))), JsNum.mul_nan]

theorem allZNaN_nil : AllZNaN [] := ⟨[], by simp, rfl⟩

theorem allZNaN_append (l1 l2 : List JsNum) (h1 : AllZNaN l1) (h2 : AllZNaN l2) :
    AllZNaN (l1 ++ l2) := by
  obtain ⟨v1, hv1, rfl⟩ := h1
  obtain ⟨v2, hv2, rfl⟩ := h2
  refine ⟨v1 ++ v2, ?_, by rw [List.flatMap_append]⟩
  intro v hv
  rcases List.mem_append.mp hv with h | h
  · exact hv1 v h
  · exact hv2 v h

theorem allZNaN_flatMap {ι : Type} (f : ι → List JsNum) (l : List ι)
    (h : ∀ i, AllZNaN (f i)) : AllZNaN (l.flatMap f) := by
  induction l with
  | nil => exact allZNaN_nil
  | cons a l ih =>
    rw [List.flatMap_cons]
    exact allZNaN_append _ _ (h a) ih

theorem allZNaN_segFloats (p0 p1 : Vec3 JsNum) (h0 : p0.z = JsNum.nan) (h1 : p1.z = JsNum.nan) :
    AllZNaN (segFloats p0 p1) := by
  refine ⟨[p0, p1], ?_, rfl⟩
  intro v hv
  simp only [List.mem_cons, List.mem_singleton, List.not_mem_nil, or_false] at hv
  rcases hv with rfl | rfl
  · exact h0
  · exact h1

theorem allZNaN_map_fround (l : List JsNum) (h : AllZNaN l) :
    AllZNaN (l.map JsNum.fround) := by
  obtain ⟨vs, hvs, rfl⟩ := h
  refine ⟨vs.map fun v => ⟨JsNum.fround v.x, JsNum.fround v.y, JsNum.fround v.z⟩, ?_, ?_⟩
  · intro v hv
    obtain ⟨w, hw, rfl⟩ := List.mem_map.mp hv
    show JsNum.fround w.z = JsNum.nan
    rw [hvs w hw]
    rfl
  · induction vs with
    | nil => rfl
    | cons a vs ih =>
      rw [List.flatMap_cons, List.map_append, List.map_cons, List.flatMap_cons,
        ih (fun v hv => hvs v (List.mem_cons_of_mem a hv))]
      rfl

/-- With `b = 0` every vertex that `build` stores has the `z` component NaN. -/
theorem build_allZNaN (F : FiniteMath) (s : Model JsNum) (p : Params JsNum)
    (hb : p.b = JsNum.fin 0) :
    AllZNaN (build (JsMath.ieee F) s p).uLines ∧ AllZNaN (build (JsMath.ieee F) s p).vLines := by
  constructor
  · show AllZNaN ((ringData _ p).map JsNum.fround)
    apply allZNaN_map_fround
    rw [ringData_eq]
    apply allZNaN_flatMap
    intro i
    unfold ringOf openPolyline
    apply allZNaN_flatMap
    intro j
    exact allZNaN_segFloats _ _ (surfacePoint_z_nan F _ _ p hb) (surfacePoint_z_nan F _ _ p hb)
  · show AllZNaN ((meridianData _ p).map JsNum.fround)
    apply allZNaN_map_fround
    rw [meridianData_eq]
    apply allZNaN_flatMap
    intro j
    unfold meridianOf openPolyline
    apply allZNaN_flatMap
    intro i
    exact allZNaN_segFloats _ _ (surfacePoint_z_nan F _ _ p hb) (surfacePoint_z_nan F _ _ p hb)

end Model

/-! ## Lemmas on the conversion to single precision -/

namespace JsNum

theorem fin_add (x y : ℚ) : fin x + fin y = fin (x + y) := rfl

theorem fin_sub (x y : ℚ) : fin x - fin y = fin (x - y) := by
  show fin (x + -y) = fin (x - y)
  rw [sub_eq_add_neg]

theorem fin_mul (x y : ℚ) : fin x * fin y = fin (x * y) := rfl

theorem fin_div (x y : ℚ) (hy : y ≠ 0) : fin x / fin y = fin (x / y) := by
  show div (fin x) (fin y) = fin (x / y)
  simp [div, hy]

theorem zero_eq : (0 : JsNum) = fin 0 := rfl

theorem natCast_eq (k : ℕ) : ((k : ℕ) : JsNum) = fin k := rfl

theorem intCast_eq (k : ℤ) : ((k : ℤ) : JsNum) = fin k := rfl

theorem log_double_0_1 : Int.log 2 |double_0_1| = -4 := by
  have hpos : (0 : ℚ) < |double_0_1| := by unfold double_0_1; norm_num
  have h1 : (-4 : ℤ) ≤ Int.log 2 |double_0_1| := by
    rw [← Int.zpow_le_iff_le_log (by norm_num) hpos]
    unfold double_0_1
    norm_num [abs_of_pos]
  have h2 : Int.log 2 |double_0_1| < -3 := by
    rw [← Int.lt_zpow_iff_log_lt (by norm_num) hpos]
    unfold double_0_1
    norm_num [abs_of_pos]
  omega

theorem roundHalfEven_double_0_1 : roundHalfEven (double_0_1 / 2 ^ (-27 : ℤ)) = 13421773 := by
  have hf : ⌊double_0_1 / 2 ^ (-27 : ℤ)⌋ = 13421772 := by
    rw [Int.floor_eq_iff]
    unfold double_0_1
    norm_num
  unfold roundHalfEven
  simp only [hf]
  unfold double_0_1
  norm_num

/-- Storing the double `0.1` into a `Float32Array` gives the single nearest
to `0.1`, a different number. -/
theorem fround_double_0_1 : fround (fin double_0_1) = fin single_0_1 := by
  show froundFinite double_0_1 = fin single_0_1
  unfold froundFinite
  have h0 : double_0_1 ≠ 0 := by unfold double_0_1; norm_num
  rw [if_neg h0]
  simp only [log_double_0_1]
  have hmax : max (-4 : ℤ) (-126) - 23 = -27 := by decide
  rw [hmax, roundHalfEven_double_0_1]
  unfold single_0_1
  norm_num [abs_of_pos]

theorem single_ne_double_0_1 : single_0_1 ≠ double_0_1 := by
  unfold single_0_1 double_0_1
  norm_num

theorem series_cos_zero : FiniteMath.series.cos 0 = 1 := by
  simp [FiniteMath.series, List.range_succ]

end JsNum

namespace Model

/-- With `b = 0.1` and two rings the second ring has radius `0.1`. -/
theorem ringRadius_paramsTenth : ringRadius paramsTenth ((2 : ℕ) : ℤ) 1 = JsNum.fin double_0_1 := by
  simp only [ringRadius, paramsTenth, JsNum.zero_eq, JsNum.natCast_eq, JsNum.intCast_eq,
    JsNum.fin_sub]
  norm_num [JsNum.fin_div, JsNum.fin_mul, JsNum.fin_add]

theorem ringAngle_paramsTenth :
    ringAngle (JsMath.ieee FiniteMath.series) ((3 : ℕ) : ℤ) 0 = JsNum.fin 0 := by
  simp only [ringAngle, JsMath.ieee, JsNum.zero_eq, JsNum.natCast_eq, JsNum.intCast_eq,
    JsNum.fin_sub, JsNum.fin_mul]
  norm_num [JsNum.fin_div, JsNum.fin_mul, JsNum.fin_add]

theorem meridianRadius_paramsTenth :
    meridianRadius paramsTenth ((2 : ℕ) : ℤ) 1 = JsNum.fin double_0_1 := by
  simp only [meridianRadius, paramsTenth, JsNum.zero_eq, JsNum.natCast_eq, JsNum.intCast_eq,
    JsNum.fin_sub]
  norm_num [JsNum.fin_div, JsNum.fin_mul, JsNum.fin_add]

theorem meridianAngle_paramsTenth :
    meridianAngle (JsMath.ieee FiniteMath.series) ((1 : ℕ) : ℤ) 0 = JsNum.fin 0 := by
  simp only [meridianAngle, JsMath.ieee, JsNum.zero_eq, JsNum.natCast_eq, JsNum.intCast_eq,
    JsNum.fin_sub, JsNum.fin_mul]
  norm_num [JsNum.fin_div, JsNum.fin_mul, JsNum.fin_add]

/-- With a single ring and a finite `b` the guard `rSteps === 1` makes the
radius `0` (without it the radius would be `0 / 0`, a NaN). -/
theorem ringRadius_single (p : Params JsNum) (q : ℚ) (hb : p.b = JsNum.fin q) (i : ℕ) :
    ringRadius p ((1 : ℕ) : ℤ) i = JsNum.fin 0 := by
  simp only [ringRadius, hb, JsNum.zero_eq, JsNum.fin_sub, Nat.cast_one, if_true,
    JsNum.fin_mul, JsNum.fin_add]
  norm_num

/-- With a single meridian the guard `uSteps === 1` makes the angle `0`. -/
theorem meridianAngle_single (F : FiniteMath) (j : ℕ) :
    meridianAngle (JsMath.ieee F) ((1 : ℕ) : ℤ) j = JsNum.fin 0 := by
  simp only [meridianAngle, JsMath.ieee, JsNum.zero_eq, JsNum.natCast_eq, JsNum.fin_sub,
    Nat.cast_one, if_true, JsNum.fin_mul, JsNum.fin_add]
  norm_num

/-- At radius `0.1` and angle `0` the `x` coordinate is the double `0.1`. -/
theorem surfacePoint_x_paramsTenth :
    (surfacePoint (JsMath.ieee FiniteMath.series) (JsNum.fin double_0_1) (JsNum.fin 0)
      paramsTenth).x = JsNum.fin double_0_1 := by
  show JsNum.fin double_0_1 * JsNum.fin (FiniteMath.series.cos 0) = JsNum.fin double_0_1
  rw [JsNum.series_cos_zero, JsNum.fin_mul, mul_one]

end Model

/-! ## Claims -/

section Claims

open Model JsNum

/-- C1 as stated fails, in two ways.  With `rLines = 4294967298` (an integer,
`2^32 + 2`) and `Nu = 3` the conversion `rLines | 0` gives 2, so `build` emits
two rings (24 floats), not the 4294967298 rings of the stated concatenation.
And the array holds single-precision numbers: with `b = 0.1`, two rings and
`Nu = 3`, the float at index 12 (the `x` of the first vertex of the second
ring) is the single nearest to `0.1`, while `surfacePoint(r_1, u_0)` has
`x = 0.1`, the double; every operation on that path is exact in double
arithmetic. -/
theorem C1_counterexample :
    (build ⟨Real.exp, Real.sin, Real.cos, Real.pi, id⟩ constructor
        { params ℝ with Nu := fin 3, rLines := fin 4294967298 }).uLines
      ≠ ringSpec ⟨Real.exp, Real.sin, Real.cos, Real.pi, id⟩
          { params ℝ with Nu := fin 3, rLines := fin 4294967298 } 4294967298 3
    ∧ (build (JsMath.ieee FiniteMath.series) constructor paramsTenth).uLines[12]?
        = some (fin single_0_1)
    ∧ (surfacePoint (JsMath.ieee FiniteMath.series)
          (paramsTenth.b * fin 1 / (fin 2 - fin 1))
          (fin 2 * (JsMath.ieee FiniteMath.series).PI * fin 0 / (fin 3 - fin 1))
          paramsTenth).x = fin double_0_1
    ∧ single_0_1 ≠ double_0_1 := by
  refine ⟨?_, ?_, ?_, single_ne_double_0_1⟩
  · intro h
    have hl := congrArg List.length h
    have h1 : (build ⟨Real.exp, Real.sin, Real.cos, Real.pi, id⟩ constructor
          { params ℝ with Nu := fin 3, rLines := fin 4294967298 }).uLines.length
          = 6 * ((toInt32 (fin 4294967298)).toNat * ((max 3 (toInt32 (fin 3))).toNat - 1)) := by
      rw [build_uLines, List.length_map]
      exact length_ringData _ _
    rw [h1, length_ringSpec] at hl
    revert hl
    decide
  · have h : (build (JsMath.ieee FiniteMath.series) constructor paramsTenth).uLines
        = (ringSegments (JsMath.ieee FiniteMath.series) paramsTenth 2 3).map JsNum.fround := by
      rw [build_uLines, ringData_eq_ringSegments _ _ 2 3 (by decide) (by decide)]
      rfl
    rw [h, List.getElem?_map]
    simp only [ringSegments, List.range_succ, List.range_zero, List.nil_append,
      List.flatMap_append, List.flatMap_singleton, Nat.add_one_sub_one, Nat.reduceSub,
      List.append_assoc, List.cons_append, List.getElem?_cons_succ, List.getElem?_cons_zero,
      List.flatMap_cons, List.flatMap_nil, List.append_nil, Nat.reduceAdd]
    rw [ringRadius_paramsTenth, ringAngle_paramsTenth, surfacePoint_x_paramsTenth,
      Option.map_some', fround_double_0_1]
  · have hr : paramsTenth.b * fin 1 / (fin 2 - fin 1) = fin double_0_1 := by
      simp only [paramsTenth, fin_sub, fin_mul]
      norm_num [fin_div]
    have hu : fin 2 * (JsMath.ieee FiniteMath.series).PI * fin 0 / (fin 3 - fin 1) = fin 0 := by
      simp only [JsMath.ieee, fin_sub, fin_mul]
      norm_num [fin_div]
    rw [hr, hu]
    exact surfacePoint_x_paramsTenth

/-- C1 amended: for an integer `1 ≤ rLines < 2^31` and an integer
`-2^31 ≤ Nu < 2^31`, with `Nu_eff = max(3, Nu)`, the ring array after `build`
is, element by element, the single-precision conversion of the concatenation,
for `i = 0..rLines-1` and within each `i` for `j = 0..Nu_eff-2`, of the vertex
at `(r_i, u_j)` followed by the vertex at `(r_i, u_{j+1})`, with `r_i` and
`u_j` as the code computes them (`ringSegments`), in every arithmetic; over
the reals, where the conversion is the identity, it is exactly that
concatenation with `r_i = b*i/(rLines-1)` (`0` when `rLines = 1`) and
`u_j = 2*pi*j/(Nu_eff-1)`.  Each ring is `Nu_eff - 1` segments, none closing
it; for `rLines = 1` and a finite `b` the radius computed is `0`. -/
theorem C1_ring_content (rLines : ℕ) (Nu : ℤ)
    (hRange : 1 ≤ rLines ∧ rLines < 2 ^ 31) (hNuRange : -2 ^ 31 ≤ Nu ∧ Nu < 2 ^ 31) :
    (∀ (α : Type) [Zero α] [Add α] [Sub α] [Mul α] [Div α] [Neg α] [NatCast α] [IntCast α]
        (M : JsMath α) (s : Model α) (p : Params α),
        p.rLines = fin rLines → p.Nu = fin Nu →
          (build M s p).uLines
            = (ringSegments M p rLines (max 3 Nu).toNat).map M.fround)
      ∧ (∀ (M : JsMath ℝ) (s : Model ℝ) (p : Params ℝ),
          M.fround = id → p.rLines = fin rLines → p.Nu = fin Nu →
            (build M s p).uLines = ringSpec M p rLines (max 3 Nu).toNat)
      ∧ (rLines = 1 → ∀ (p : Params JsNum) (q : ℚ) (i : ℕ), p.b = fin q →
          ringRadius p rLines i = fin 0) := by
  refine ⟨?_, ?_, ?_⟩
  · intro α _ _ _ _ _ _ _ _ M s p hr hN
    rw [build_uLines, ringData_eq_ringSegments M p rLines (max 3 Nu).toNat ?_
      (effNu_int p Nu hN hNuRange.1 hNuRange.2)]
    rw [hr]
    exact toInt32_nat rLines hRange.2
  · intro M s p hM hr hN
    rw [build_uLines_of_id M s p hM]
    apply ringData_eq_ringSpec M p rLines _ _ (effNu_int p Nu hN hNuRange.1 hNuRange.2) hRange.1
    rw [hr]
    exact toInt32_nat rLines hRange.2
  · intro h1 p q i hb
    rw [h1]
    exact ringRadius_single p q hb i

/-- C1 amended, at three rings and `Nu = 5`: over the IEEE value classes with
`b = 0.1`, and over the reals with the parameters of `main.js`. -/
theorem C1_ring_content_witness :
    (build (JsMath.ieee FiniteMath.series) constructor
        { paramsTenth with Nu := fin ((5 : ℤ) : ℚ), rLines := fin ((3 : ℕ) : ℚ) }).uLines
        = (ringSegments (JsMath.ieee FiniteMath.series)
            { paramsTenth with Nu := fin ((5 : ℤ) : ℚ), rLines := fin ((3 : ℕ) : ℚ) }
            3 (max 3 (5 : ℤ)).toNat).map (JsMath.ieee FiniteMath.series).fround
      ∧ (build ⟨Real.exp, Real.sin, Real.cos, Real.pi, id⟩ constructor
          { params ℝ with Nu := fin ((5 : ℤ) : ℚ), rLines := fin ((3 : ℕ) : ℚ) }).uLines
        = ringSpec ⟨Real.exp, Real.sin, Real.cos, Real.pi, id⟩
            { params ℝ with Nu := fin ((5 : ℤ) : ℚ), rLines := fin ((3 : ℕ) : ℚ) }
            3 (max 3 (5 : ℤ)).toNat :=
  ⟨(C1_ring_content 3 5 (by decide) (by decide)).1 JsNum _ constructor _ rfl rfl,
   (C1_ring_content 3 5 (by decide) (by decide)).2.1 _ constructor _ rfl rfl rfl⟩

/-- C2 as stated fails, in two ways.  With `uLines = 4294967297` (an integer,
`2^32 + 1`) and `Nr = 2` the conversion `uLines | 0` gives 1, so `build` emits
one meridian (6 floats), not the 4294967297 meridians of the stated
concatenation.  And the array holds single-precision numbers: with `b = 0.1`,
one meridian and `Nr = 2`, the float at index 3 (the `x` of the second vertex)
is the single nearest to `0.1`, while `surfacePoint(r_1, 0)` has `x = r_1`,
the double `0.1`; every operation on that path is exact in double
arithmetic. -/
theorem C2_counterexample :
    (build ⟨Real.exp, Real.sin, Real.cos, Real.pi, id⟩ constructor
        { params ℝ with Nr := fin 2, uLines := fin 4294967297 }).vLines
      ≠ meridianSpec ⟨Real.exp, Real.sin, Real.cos, Real.pi, id⟩
          { params ℝ with Nr := fin 2, uLines := fin 4294967297 } 4294967297 2
    ∧ (build (JsMath.ieee FiniteMath.series) constructor paramsTenth).vLines[3]?
        = some (fin single_0_1)
    ∧ (surfacePoint (JsMath.ieee FiniteMath.series)
          (paramsTenth.b * fin 1 / (fin 2 - fin 1)) (fin 0) paramsTenth).x = fin double_0_1
    ∧ single_0_1 ≠ double_0_1 := by
  refine ⟨?_, ?_, ?_, single_ne_double_0_1⟩
  · intro h
    have hl := congrArg List.length h
    have h1 : (build ⟨Real.exp, Real.sin, Real.cos, Real.pi, id⟩ constructor
          { params ℝ with Nr := fin 2, uLines := fin 4294967297 }).vLines.length
          = 6 * ((toInt32 (fin 4294967297)).toNat * ((max 2 (toInt32 (fin 2))).toNat - 1)) := by
      rw [build_vLines, List.length_map]
      exact length_meridianData _ _
    rw [h1, length_meridianSpec] at hl
    revert hl
    decide
  · have h : (build (JsMath.ieee FiniteMath.series) constructor paramsTenth).vLines
        = (meridianSegments (JsMath.ieee FiniteMath.series) paramsTenth 1 2).map
            JsNum.fround := by
      rw [build_vLines, meridianData_eq_meridianSegments _ _ 1 2 (by decide) (by decide)]
      rfl
    rw [h, List.getElem?_map]
    simp only [meridianSegments, List.range_succ, List.range_zero, List.nil_append,
      List.flatMap_append, List.flatMap_singleton, Nat.add_one_sub_one, Nat.reduceSub,
      List.append_assoc, List.cons_append, List.getElem?_cons_succ, List.getElem?_cons_zero,
      List.flatMap_cons, List.flatMap_nil, List.append_nil, Nat.reduceAdd]
    rw [meridianRadius_paramsTenth, meridianAngle_paramsTenth, surfacePoint_x_paramsTenth,
      Option.map_some', fround_double_0_1]
  · have hr : paramsTenth.b * fin 1 / (fin 2 - fin 1) = fin double_0_1 := by
      simp only [paramsTenth, fin_sub, fin_mul]
      norm_num [fin_div]
    rw [hr]
    exact surfacePoint_x_paramsTenth

/-- C2 amended: for an integer `1 ≤ uLines < 2^31` and an integer
`-2^31 ≤ Nr < 2^31`, with `Nr_eff = max(2, Nr)`, the meridian array after
`build` is, element by element, the single-precision conversion of the
concatenation, for `j = 0..uLines-1` and within each `j` for
`i = 0..Nr_eff-2`, of the vertex at `(r_i, u_j)` followed by the vertex at
`(r_{i+1}, u_j)`, with `u_j` and `r_i` as the code computes them
(`meridianSegments`), in every arithmetic; over the reals, where the
conversion is the identity, it is exactly that concatenation with
`u_j = 2*pi*j/(uLines-1)` (`0` when `uLines = 1`) and `r_i = b*i/(Nr_eff-1)`,
and for `uLines = 1` every vertex has `x = r` and `y = 0`; for `uLines = 1`
the angle computed is `0` in IEEE arithmetic too. -/
theorem C2_meridian_content (uLines : ℕ) (Nr : ℤ)
    (hRange : 1 ≤ uLines ∧ uLines < 2 ^ 31) (hNrRange : -2 ^ 31 ≤ Nr ∧ Nr < 2 ^ 31) :
    (∀ (α : Type) [Zero α] [Add α] [Sub α] [Mul α] [Div α] [Neg α] [NatCast α] [IntCast α]
        (M : JsMath α) (s : Model α) (p : Params α),
        p.uLines = fin uLines → p.Nr = fin Nr →
          (build M s p).vLines
            = (meridianSegments M p uLines (max 2 Nr).toNat).map M.fround)
      ∧ (∀ (s : Model ℝ) (p : Params ℝ), p.uLines = fin uLines → p.Nr = fin Nr →
          (build ⟨Real.exp, Real.sin, Real.cos, Real.pi, id⟩ s p).vLines
              = meridianSpec ⟨Real.exp, Real.sin, Real.cos, Real.pi, id⟩ p uLines (max 2 Nr).toNat
            ∧ (uLines = 1 →
                (build ⟨Real.exp, Real.sin, Real.cos, Real.pi, id⟩ s p).vLines
                  = (List.range ((max 2 Nr).toNat - 1)).flatMap fun i =>
                      [specMeridianRadius p (max 2 Nr).toNat i, 0,
                        (surfacePoint ⟨Real.exp, Real.sin, Real.cos, Real.pi, id⟩
                          (specMeridianRadius p (max 2 Nr).toNat i) 0 p).z,
                       specMeridianRadius p (max 2 Nr).toNat (i + 1), 0,
                        (surfacePoint ⟨Real.exp, Real.sin, Real.cos, Real.pi, id⟩
                          (specMeridianRadius p (max 2 Nr).toNat (i + 1)) 0 p).z]))
      ∧ (uLines = 1 → ∀ (F : FiniteMath) (j : ℕ),
          meridianAngle (JsMath.ieee F) uLines j = fin 0) := by
  refine ⟨?_, ?_, ?_⟩
  · intro α _ _ _ _ _ _ _ _ M s p hu hN
    rw [build_vLines, meridianData_eq_meridianSegments M p uLines (max 2 Nr).toNat ?_
      (effNr_int p Nr hN hNrRange.1 hNrRange.2)]
    rw [hu]
    exact toInt32_nat uLines hRange.2
  · intro s p hu hN
    have h : (build ⟨Real.exp, Real.sin, Real.cos, Real.pi, id⟩ s p).vLines
        = meridianSpec ⟨Real.exp, Real.sin, Real.cos, Real.pi, id⟩ p uLines (max 2 Nr).toNat := by
      rw [build_vLines_of_id _ s p rfl]
      apply meridianData_eq_meridianSpec _ p uLines _ _
        (effNr_int p Nr hN hNrRange.1 hNrRange.2) hRange.1
      rw [hu]
      exact toInt32_nat uLines hRange.2
    refine ⟨h, ?_⟩
    intro h1
    rw [h, h1]
    simp [meridianSpec, specMeridianAngle, vertexFloats, surfacePoint, List.range_succ]
  · intro h1 F j
    rw [h1]
    exact meridianAngle_single F j

/-- C2 amended, at three meridians and `Nr = 4`: over the IEEE value classes
with `b = 0.1`, and over the reals with the parameters of `main.js`. -/
theorem C2_meridian_content_witness :
    (build (JsMath.ieee FiniteMath.series) constructor
        { paramsTenth with Nr := fin ((4 : ℤ) : ℚ), uLines := fin ((3 : ℕ) : ℚ) }).vLines
        = (meridianSegments (JsMath.ieee FiniteMath.series)
            { paramsTenth with Nr := fin ((4 : ℤ) : ℚ), uLines := fin ((3 : ℕ) : ℚ) }
            3 (max 2 (4 : ℤ)).toNat).map (JsMath.ieee FiniteMath.series).fround
      ∧ (build ⟨Real.exp, Real.sin, Real.cos, Real.pi, id⟩ constructor
          { params ℝ with Nr := fin ((4 : ℤ) : ℚ), uLines := fin ((3 : ℕ) : ℚ) }).vLines
        = meridianSpec ⟨Real.exp, Real.sin, Real.cos, Real.pi, id⟩
            { params ℝ with Nr := fin ((4 : ℤ) : ℚ), uLines := fin ((3 : ℕ) : ℚ) }
            3 (max 2 (4 : ℤ)).toNat :=
  ⟨(C2_meridian_content 3 4 (by decide) (by decide)).1 JsNum _ constructor _ rfl rfl,
   ((C2_meridian_content 3 4 (by decide) (by decide)).2.1 constructor _ rfl rfl).1⟩

/-- C3 as stated fails: with `rLines = 4294967297` (an integer, `2^32 + 1`)
and `Nu = 3` the conversion `rLines | 0` gives 1, so the ring array holds 12
floats, not `2*3*4294967297*(3 - 1)`. -/
theorem C3_counterexample :
    ((build ⟨Real.exp, Real.sin, Real.cos, Real.pi, id⟩ constructor
        { params ℝ with Nu := fin 3, rLines := fin 4294967297 }).uLines.length : ℤ) = 12
      ∧ (12 : ℤ) ≠ 2 * 3 * 4294967297 * (max 3 3 - 1) := by
  constructor
  · have h : (build ⟨Real.exp, Real.sin, Real.cos, Real.pi, id⟩ constructor
        { params ℝ with Nu := fin 3, rLines := fin 4294967297 }).uLines.length
        = 6 * ((toInt32 (fin 4294967297)).toNat * ((max 3 (toInt32 (fin 3))).toNat - 1)) :=
      by rw [build_uLines, List.length_map]; exact length_ringData _ _
    rw [h]
    decide
  · decide

/-- C3 amended: for integers `0 ≤ rLines < 2^31` and `-2^31 ≤ Nu < 2^31` the
ring array holds `2*3*rLines*(max(3, Nu) - 1)` floats, it is empty for
`rLines = 0`, and `uCount` is that length divided by 3. -/
theorem C3_ring_length {α : Type} [Zero α] [Add α] [Sub α] [Mul α] [Div α]
    [Neg α] [NatCast α] [IntCast α] (M : JsMath α) (s : Model α) (p : Params α) (rLines Nu : ℤ)
    (hr : p.rLines = fin rLines) (hN : p.Nu = fin Nu)
    (hRange : 0 ≤ rLines ∧ rLines < 2 ^ 31) (hNuRange : -2 ^ 31 ≤ Nu ∧ Nu < 2 ^ 31) :
    ((build M s p).uLines.length : ℤ) = 2 * 3 * rLines * (max 3 Nu - 1)
      ∧ (rLines = 0 → (build M s p).uLines = [])
      ∧ (build M s p).uCount = ((build M s p).uLines.length : ℚ) / 3 := by
  have hlen : ((build M s p).uLines.length : ℤ) = 2 * 3 * rLines * (max 3 Nu - 1) := by
    rw [build_uLines, List.length_map, length_ringData]
    unfold effNu
    rw [hr, hN, toInt32_int rLines (by omega) hRange.2, toInt32_int Nu hNuRange.1 hNuRange.2]
    have h3 : (3 : ℤ) ≤ max 3 Nu := le_max_left _ _
    push_cast
    rw [Int.toNat_of_nonneg hRange.1, Nat.cast_sub (by omega), Int.toNat_of_nonneg (by omega)]
    push_cast
    ring
  refine ⟨hlen, ?_, rfl⟩
  intro h0
  apply List.eq_nil_of_length_eq_zero
  have : ((build M s p).uLines.length : ℤ) = 0 := by rw [hlen, h0]; ring
  exact_mod_cast this

/-- C3 amended, at one ring and `Nu = 4`: 18 floats. -/
theorem C3_ring_length_witness :
    ((build ⟨Real.exp, Real.sin, Real.cos, Real.pi, id⟩ constructor
        { params ℝ with Nu := fin ((4 : ℤ) : ℚ), rLines := fin ((1 : ℤ) : ℚ) }).uLines.length : ℤ)
        = 2 * 3 * 1 * (max 3 4 - 1)
      ∧ ((1 : ℤ) = 0 → (build ⟨Real.exp, Real.sin, Real.cos, Real.pi, id⟩ constructor
        { params ℝ with Nu := fin ((4 : ℤ) : ℚ), rLines := fin ((1 : ℤ) : ℚ) }).uLines = [])
      ∧ (build ⟨Real.exp, Real.sin, Real.cos, Real.pi, id⟩ constructor
        { params ℝ with Nu := fin ((4 : ℤ) : ℚ), rLines := fin ((1 : ℤ) : ℚ) }).uCount
        = ((build ⟨Real.exp, Real.sin, Real.cos, Real.pi, id⟩ constructor
        { params ℝ with Nu := fin ((4 : ℤ) : ℚ),
                        rLines := fin ((1 : ℤ) : ℚ) }).uLines.length : ℚ) / 3 :=
  C3_ring_length _ constructor _ 1 4 rfl rfl (by decide) (by decide)

/-- C4 as stated fails: with `uLines = 2147483648` (an integer, `2^31`) and
`Nr = 2` the conversion `uLines | 0` gives `-2147483648`, the meridian loop
does not run and the meridian array is empty, not of
`2*3*2147483648*(2 - 1)` floats. -/
theorem C4_counterexample :
    ((build ⟨Real.exp, Real.sin, Real.cos, Real.pi, id⟩ constructor
        { params ℝ with Nr := fin 2, uLines := fin 2147483648 }).vLines.length : ℤ) = 0
      ∧ (0 : ℤ) ≠ 2 * 3 * 2147483648 * (max 2 2 - 1) := by
  constructor
  · have h : (build ⟨Real.exp, Real.sin, Real.cos, Real.pi, id⟩ constructor
        { params ℝ with Nr := fin 2, uLines := fin 2147483648 }).vLines.length
        = 6 * ((toInt32 (fin 2147483648)).toNat * ((max 2 (toInt32 (fin 2))).toNat - 1)) :=
      by rw [build_vLines, List.length_map]; exact length_meridianData _ _
    rw [h]
    decide
  · decide

/-- C4 amended: for integers `0 ≤ uLines < 2^31` and `-2^31 ≤ Nr < 2^31` the
meridian array holds `2*3*uLines*(max(2, Nr) - 1)` floats, it is empty for
`uLines = 0`, and `vCount` is that length divided by 3. -/
theorem C4_meridian_length {α : Type} [Zero α] [Add α] [Sub α] [Mul α] [Div α]
    [Neg α] [NatCast α] [IntCast α] (M : JsMath α) (s : Model α) (p : Params α) (uLines Nr : ℤ)
    (hu : p.uLines = fin uLines) (hN : p.Nr = fin Nr)
    (hRange : 0 ≤ uLines ∧ uLines < 2 ^ 31) (hNrRange : -2 ^ 31 ≤ Nr ∧ Nr < 2 ^ 31) :
    ((build M s p).vLines.length : ℤ) = 2 * 3 * uLines * (max 2 Nr - 1)
      ∧ (uLines = 0 → (build M s p).vLines = [])
      ∧ (build M s p).vCount = ((build M s p).vLines.length : ℚ) / 3 := by
  have hlen : ((build M s p).vLines.length : ℤ) = 2 * 3 * uLines * (max 2 Nr - 1) := by
    rw [build_vLines, List.length_map, length_meridianData]
    unfold effNr
    rw [hu, hN, toInt32_int uLines (by omega) hRange.2, toInt32_int Nr hNrRange.1 hNrRange.2]
    have h2 : (2 : ℤ) ≤ max 2 Nr := le_max_left _ _
    push_cast
    rw [Int.toNat_of_nonneg hRange.1, Nat.cast_sub (by omega), Int.toNat_of_nonneg (by omega)]
    push_cast
    ring
  refine ⟨hlen, ?_, rfl⟩
  intro h0
  apply List.eq_nil_of_length_eq_zero
  have : ((build M s p).vLines.length : ℤ) = 0 := by rw [hlen, h0]; ring
  exact_mod_cast this

/-- C4 amended, at one meridian and `Nr = 2`: 6 floats. -/
theorem C4_meridian_length_witness :
    ((build ⟨Real.exp, Real.sin, Real.cos, Real.pi, id⟩ constructor
        { params ℝ with Nr := fin ((2 : ℤ) : ℚ), uLines := fin ((1 : ℤ) : ℚ) }).vLines.length : ℤ)
        = 2 * 3 * 1 * (max 2 2 - 1)
      ∧ ((1 : ℤ) = 0 → (build ⟨Real.exp, Real.sin, Real.cos, Real.pi, id⟩ constructor
        { params ℝ with Nr := fin ((2 : ℤ) : ℚ), uLines := fin ((1 : ℤ) : ℚ) }).vLines = [])
      ∧ (build ⟨Real.exp, Real.sin, Real.cos, Real.pi, id⟩ constructor
        { params ℝ with Nr := fin ((2 : ℤ) : ℚ), uLines := fin ((1 : ℤ) : ℚ) }).vCount
        = ((build ⟨Real.exp, Real.sin, Real.cos, Real.pi, id⟩ constructor
        { params ℝ with Nr := fin ((2 : ℤ) : ℚ),
                        uLines := fin ((1 : ℤ) : ℚ) }).vLines.length : ℚ) / 3 :=
  C4_meridian_length _ constructor _ 1 2 rfl rfl (by decide) (by decide)

/-- C5: over the reals, `surfacePoint(r, u, p)` with `r ≥ 0` and `b ≠ 0`
returns `x = r cos u`, `y = r sin u`,
`z = a exp(-n r) sin((m π / b) r + phi)`, and `|z| ≤ |a| exp(-n r)`. -/
theorem C5_surfacePoint_formula_and_bound (r u : ℝ) (p : Params ℝ) (_hr : 0 ≤ r) (_hb : p.b ≠ 0) :
    surfacePoint ⟨Real.exp, Real.sin, Real.cos, Real.pi, id⟩ r u p
        = ⟨r * Real.cos u, r * Real.sin u,
            p.a * Real.exp (-p.n * r) * Real.sin ((p.m * Real.pi / p.b) * r + p.phi)⟩
      ∧ |(surfacePoint ⟨Real.exp, Real.sin, Real.cos, Real.pi, id⟩ r u p).z|
          ≤ |p.a| * Real.exp (-p.n * r) := by
  refine ⟨rfl, ?_⟩
  show |p.a * Real.exp (-p.n * r) * Real.sin ((p.m * Real.pi / p.b) * r + p.phi)| ≤ _
  rw [abs_mul, abs_mul, abs_of_pos (Real.exp_pos _)]
  have h1 := Real.abs_sin_le_one ((p.m * Real.pi / p.b) * r + p.phi)
  have h2 : 0 ≤ |p.a| * Real.exp (-p.n * r) :=
    mul_nonneg (abs_nonneg _) (Real.exp_pos _).le
  calc |p.a| * Real.exp (-p.n * r) * |Real.sin ((p.m * Real.pi / p.b) * r + p.phi)|
      ≤ |p.a| * Real.exp (-p.n * r) * 1 := mul_le_mul_of_nonneg_left h1 h2
    _ = |p.a| * Real.exp (-p.n * r) := mul_one _

/-- C5 at `r = 1`, `u = 0` and the parameters of `main.js`. -/
theorem C5_surfacePoint_witness :
    surfacePoint ⟨Real.exp, Real.sin, Real.cos, Real.pi, id⟩ 1 0 (params ℝ)
        = ⟨1 * Real.cos 0, 1 * Real.sin 0,
            (params ℝ).a * Real.exp (-(params ℝ).n * 1)
              * Real.sin (((params ℝ).m * Real.pi / (params ℝ).b) * 1 + (params ℝ).phi)⟩
      ∧ |(surfacePoint ⟨Real.exp, Real.sin, Real.cos, Real.pi, id⟩ 1 0 (params ℝ)).z|
          ≤ |(params ℝ).a| * Real.exp (-(params ℝ).n * 1) :=
  C5_surfacePoint_formula_and_bound 1 0 (params ℝ) zero_le_one
    (by simp [params])

/-- C6 as stated fails: for `Nr = 2147483648` the conversion `Nr | 0` wraps to
`-2147483648`, so `build` samples with `Nr = 2`, while
`max(2, floor(2147483648)) = 2147483648`. -/
theorem C6_counterexample :
    effNr { params ℝ with Nr := fin 2147483648 } = 2
      ∧ max 2 ⌊(2147483648 : ℚ)⌋ = (2147483648 : ℤ) := by
  constructor
  · simp only [effNr]
    decide
  · rw [show (2147483648 : ℚ) = ((2147483648 : ℤ) : ℚ) by norm_num, Int.floor_intCast]
    decide

/-- C6 amended: for finite `Nr` and `Nu` strictly between `-2^31 - 1` and
`2^31` the sample counts that `build` uses are `max(2, floor(Nr))` and
`max(3, floor(Nu))`. -/
theorem C6_effective_counts {α : Type} (p : Params α) (x y : ℚ)
    (hNr : p.Nr = fin x) (hNu : p.Nu = fin y)
    (hx : -2 ^ 31 - 1 < x ∧ x < 2 ^ 31) (hy : -2 ^ 31 - 1 < y ∧ y < 2 ^ 31) :
    effNr p = max 2 ⌊x⌋ ∧ effNu p = max 3 ⌊y⌋ := by
  unfold effNr effNu
  rw [hNr, hNu]
  exact ⟨max_toInt32_eq_max_floor 2 (by norm_num) x hx.1 hx.2,
    max_toInt32_eq_max_floor 3 (by norm_num) y hy.1 hy.2⟩

/-- C6 amended, at `Nr = 15/2` and `Nu = -7/2`: the counts are
`max(2, 7)` and `max(3, -4)`. -/
theorem C6_effective_counts_witness :
    effNr { params ℝ with Nr := fin (15 / 2), Nu := fin (-7 / 2) } = max 2 ⌊(15 / 2 : ℚ)⌋
      ∧ effNu { params ℝ with Nr := fin (15 / 2), Nu := fin (-7 / 2) } = max 3 ⌊(-7 / 2 : ℚ)⌋ :=
  C6_effective_counts { params ℝ with Nr := fin (15 / 2), Nu := fin (-7 / 2) } (15 / 2) (-7 / 2)
    rfl rfl (by norm_num) (by norm_num)

/-- C7 as stated fails: at `b = 0`, `m = 6`, `r = 1`, `u = 0` the call
`surfacePoint(r, u, p)` raises nothing, whatever the `Math` library computes
on finite values; it returns a point whose `z` is NaN. -/
theorem C7_counterexample :
    (¬ ∃ (F : FiniteMath) (e : JsError),
        surfacePointCall (JsMath.ieee F) (fin 1) (fin 0)
          ⟨fin 4, fin (1 / 2), fin 6, fin 0, fin 0, fin 120, fin 120, fin 40, fin 40⟩
          = Completion.throw e)
      ∧ (surfacePoint (JsMath.ieee FiniteMath.series) (fin 1) (fin 0)
          ⟨fin 4, fin (1 / 2), fin 6, fin 0, fin 0, fin 120, fin 120, fin 40, fin 40⟩).z = nan := by
  constructor
  · rintro ⟨F, e, h⟩
    exact Completion.noConfusion h
  · exact surfacePoint_z_nan _ _ _ _ rfl

/-- C7 amended: for `b = 0` and `m ≠ 0` neither `surfacePoint` nor `build`
raises an error: both complete normally, the point returned has the `z`
component NaN, and every vertex of the two arrays that `build` stores has the
`z` component NaN. -/
theorem C7_zero_b_returns_nan (F : FiniteMath) (r u : JsNum) (s : Model JsNum)
    (p : Params JsNum) (hb : p.b = fin 0) (_hm : p.m ≠ fin 0) :
    surfacePointCall (JsMath.ieee F) r u p
        = Completion.normal (surfacePoint (JsMath.ieee F) r u p)
      ∧ (surfacePoint (JsMath.ieee F) r u p).z = nan
      ∧ buildCall (JsMath.ieee F) s p = Completion.normal (build (JsMath.ieee F) s p)
      ∧ AllZNaN (build (JsMath.ieee F) s p).uLines
      ∧ AllZNaN (build (JsMath.ieee F) s p).vLines :=
  ⟨rfl, surfacePoint_z_nan F r u p hb, rfl, build_allZNaN F s p hb⟩

/-- C7 amended, at `b = 0`, `m = 6`, `r = 2`, `u = 1` with two rings and two
meridians. -/
theorem C7_zero_b_returns_nan_witness :
    surfacePointCall (JsMath.ieee FiniteMath.series) (fin 2) (fin 1)
          ⟨fin 4, fin (1 / 2), fin 6, fin 0, fin 0, fin 3, fin 2, fin 2, fin 2⟩
        = Completion.normal (surfacePoint (JsMath.ieee FiniteMath.series) (fin 2) (fin 1)
          ⟨fin 4, fin (1 / 2), fin 6, fin 0, fin 0, fin 3, fin 2, fin 2, fin 2⟩)
      ∧ (surfacePoint (JsMath.ieee FiniteMath.series) (fin 2) (fin 1)
          ⟨fin 4, fin (1 / 2), fin 6, fin 0, fin 0, fin 3, fin 2, fin 2, fin 2⟩).z = nan
      ∧ buildCall (JsMath.ieee FiniteMath.series) constructor
          ⟨fin 4, fin (1 / 2), fin 6, fin 0, fin 0, fin 3, fin 2, fin 2, fin 2⟩
        = Completion.normal (build (JsMath.ieee FiniteMath.series) constructor
          ⟨fin 4, fin (1 / 2), fin 6, fin 0, fin 0, fin 3, fin 2, fin 2, fin 2⟩)
      ∧ AllZNaN (build (JsMath.ieee FiniteMath.series) constructor
          ⟨fin 4, fin (1 / 2), fin 6, fin 0, fin 0, fin 3, fin 2, fin 2, fin 2⟩).uLines
      ∧ AllZNaN (build (JsMath.ieee FiniteMath.series) constructor
          ⟨fin 4, fin (1 / 2), fin 6, fin 0, fin 0, fin 3, fin 2, fin 2, fin 2⟩).vLines :=
  C7_zero_b_returns_nan FiniteMath.series (fin 2) (fin 1) constructor
    ⟨fin 4, fin (1 / 2), fin 6, fin 0, fin 0, fin 3, fin 2, fin 2, fin 2⟩ rfl (by decide)

/-- C8: `build(p)` gives the same ring array, meridian array and vertex counts
from every prior state, and building twice with the same parameters gives the
same model as building once. -/
theorem C8_build_deterministic {α : Type} [Zero α] [Add α] [Sub α] [Mul α] [Div α]
    [Neg α] [NatCast α] [IntCast α] (M : JsMath α) (p : Params α) (s1 s2 : Model α) :
    (build M s1 p).uLines = (build M s2 p).uLines
      ∧ (build M s1 p).vLines = (build M s2 p).vLines
      ∧ (build M s1 p).uCount = (build M s2 p).uCount
      ∧ (build M s1 p).vCount = (build M s2 p).vCount
      ∧ build M (build M s1 p) p = build M s1 p :=
  ⟨rfl, rfl, rfl, rfl, rfl⟩

/-- C9: `build` never changes the two buffer handles; `upload` calls
`createBuffer` once for each handle that is still null and keeps a handle that
is set; after an upload both handles are set, and no later sequence of `build`
and `upload` calls changes them or creates a buffer; from a new `Model` the
first upload creates exactly two buffers, and after every upload the two
buffers hold the current `uLines` and `vLines`. -/
theorem C9_buffer_handles_created_once {α : Type} [Zero α] [Add α] [Sub α] [Mul α] [Div α]
    [Neg α] [NatCast α] [IntCast α] (M : JsMath α) (s : Model α) (gl : GLContext α)
    (p : Params α) (ops : List (Op α)) :
    ((build M s p).uVBO = s.uVBO ∧ (build M s p).vVBO = s.vVBO)
      ∧ (upload s gl).2.createCalls
          = gl.createCalls + (if s.uVBO.isNone then 1 else 0) + (if s.vVBO.isNone then 1 else 0)
      ∧ ((∀ k, s.uVBO = some k → (upload s gl).1.uVBO = some k)
          ∧ (∀ k, s.vVBO = some k → (upload s gl).1.vVBO = some k))
      ∧ ((upload s gl).1.uVBO ≠ none ∧ (upload s gl).1.vVBO ≠ none)
      ∧ ((run M (upload s gl) ops).1.uVBO = (upload s gl).1.uVBO
          ∧ (run M (upload s gl) ops).1.vVBO = (upload s gl).1.vVBO
          ∧ (run M (upload s gl) ops).2.createCalls = (upload s gl).2.createCalls)
      ∧ (upload (constructor : Model α) gl).2.createCalls = gl.createCalls + 2
      ∧ (∃ a b : ℕ,
          (run M (constructor, gl) (ops ++ [Op.upload])).1.uVBO = some a
            ∧ (run M (constructor, gl) (ops ++ [Op.upload])).1.vVBO = some b
            ∧ (run M (constructor, gl) (ops ++ [Op.upload])).2.store a
                = (run M (constructor, gl) (ops ++ [Op.upload])).1.uLines
            ∧ (run M (constructor, gl) (ops ++ [Op.upload])).2.store b
                = (run M (constructor, gl) (ops ++ [Op.upload])).1.vLines) := by
  obtain ⟨hu, hv⟩ := upload_handles s gl
  have hsome : ∃ a b : ℕ, (upload s gl).1.uVBO = some a ∧ (upload s gl).1.vVBO = some b := by
    rw [hu, hv]
    cases h1 : s.uVBO <;> cases h2 : s.vVBO <;> simp
  obtain ⟨a, b, ha, hb⟩ := hsome
  refine ⟨⟨rfl, rfl⟩, upload_createCalls s gl, ⟨?_, ?_⟩, ⟨?_, ?_⟩, ?_, ?_, ?_⟩
  · intro k hk
    rw [hu, hk]
    rfl
  · intro k hk
    rw [hv, hk]
    rfl
  · rw [ha]
    exact Option.some_ne_none a
  · rw [hb]
    exact Option.some_ne_none b
  · have h := run_handles M ops (upload s gl) a b ha hb
    rw [ha, hb]
    exact h
  · rw [upload_createCalls]
    rfl
  · rw [run_append]
    have hok : HandlesOk (run M ((constructor : Model α), gl) ops).1 :=
      run_handlesOk M ops _ (Or.inl ⟨rfl, rfl⟩)
    obtain ⟨a', b', ha', hb', hab⟩ := upload_handlesOk (run M (constructor, gl) ops).1
      (run M (constructor, gl) ops).2 hok
    have hst := upload_store (run M (constructor, gl) ops).1 (run M (constructor, gl) ops).2
      a' b' ha' hb' hab
    exact ⟨a', b', ha', hb', hst.1, hst.2⟩

/-- C10: over the reals, for every integer `uLines ≥ 2`, the meridian array is
the concatenation of the emitted meridians, the first and the last emitted
meridian are the same list of vertices, so the first `Nr_eff - 1` segments of
the array equal its last `Nr_eff - 1` segments, and all emitted meridians lie
in a list of at most `uLines - 1` meridians; for `uLines < 2^31` there are
`uLines` of them, the first at angle `0` and the last at angle `2π`. -/
theorem C10_duplicate_seam_meridian (s : Model ℝ) (p : Params ℝ) (uLines : ℤ)
    (hu : p.uLines = fin uLines) (h2 : 2 ≤ uLines) :
    (build ⟨Real.exp, Real.sin, Real.cos, Real.pi, id⟩ s p).vLines
        = (meridians ⟨Real.exp, Real.sin, Real.cos, Real.pi, id⟩ p).flatten
      ∧ (meridians ⟨Real.exp, Real.sin, Real.cos, Real.pi, id⟩ p).head?
          = (meridians ⟨Real.exp, Real.sin, Real.cos, Real.pi, id⟩ p).getLast?
      ∧ (build ⟨Real.exp, Real.sin, Real.cos, Real.pi, id⟩ s p).vLines.take
            (6 * ((effNr p).toNat - 1))
          = (build ⟨Real.exp, Real.sin, Real.cos, Real.pi, id⟩ s p).vLines.drop
            ((build ⟨Real.exp, Real.sin, Real.cos, Real.pi, id⟩ s p).vLines.length
              - 6 * ((effNr p).toNat - 1))
      ∧ (∃ l : List (List ℝ), (l.length : ℤ) ≤ uLines - 1
          ∧ ∀ m ∈ meridians ⟨Real.exp, Real.sin, Real.cos, Real.pi, id⟩ p, m ∈ l)
      ∧ (uLines < 2 ^ 31 →
          ((meridians ⟨Real.exp, Real.sin, Real.cos, Real.pi, id⟩ p).length : ℤ) = uLines
            ∧ meridianAngle ⟨Real.exp, Real.sin, Real.cos, Real.pi, id⟩ (toInt32 p.uLines) 0 = 0
            ∧ meridianAngle ⟨Real.exp, Real.sin, Real.cos, Real.pi, id⟩ (toInt32 p.uLines)
                ((toInt32 p.uLines).toNat - 1) = 2 * Real.pi) := by
  have hle : toInt32 p.uLines ≤ uLines := by
    rw [hu]
    exact toInt32_int_le uLines (by omega)
  have hb : (build ⟨Real.exp, Real.sin, Real.cos, Real.pi, id⟩ s p).vLines
      = meridianData ⟨Real.exp, Real.sin, Real.cos, Real.pi, id⟩ p :=
    build_vLines_of_id _ s p rfl
  rw [hb]
  refine ⟨meridianData_eq_flatten _ p, ?_, ?_, ?_, ?_⟩
  · -- first and last meridian
    unfold meridians
    rcases Nat.eq_zero_or_pos (toInt32 p.uLines).toNat with h0 | hpos
    · rw [h0]
      rfl
    · obtain ⟨k, hk⟩ : ∃ k, (toInt32 p.uLines).toNat = k + 1 := ⟨_, (Nat.succ_pred_eq_of_pos hpos).symm⟩
      have hlast := meridianOf_last_eq_first p (toInt32 p.uLines) (effNr p) (by omega)
      rw [hk, Nat.add_sub_cancel] at hlast
      have hhead : ((List.range (k + 1)).map (meridianOf ⟨Real.exp, Real.sin, Real.cos, Real.pi, id⟩ p
          (toInt32 p.uLines) (effNr p))).head?
          = some (meridianOf ⟨Real.exp, Real.sin, Real.cos, Real.pi, id⟩ p
              (toInt32 p.uLines) (effNr p) 0) := by
        rw [List.range_succ_eq_map]
        rfl
      have hend : ((List.range (k + 1)).map (meridianOf ⟨Real.exp, Real.sin, Real.cos, Real.pi, id⟩ p
          (toInt32 p.uLines) (effNr p))).getLast?
          = some (meridianOf ⟨Real.exp, Real.sin, Real.cos, Real.pi, id⟩ p
              (toInt32 p.uLines) (effNr p) k) := by
        rw [List.range_succ, List.map_append, List.map_singleton, List.getLast?_concat]
      rw [hk, hhead, hend, hlast]
  · -- the first block of floats equals the last block
    rcases Nat.eq_zero_or_pos (toInt32 p.uLines).toNat with h0 | hpos
    · have hnil : meridianData (⟨Real.exp, Real.sin, Real.cos, Real.pi, id⟩ : JsMath ℝ) p = [] := by
        rw [meridianData_eq, h0]
        rfl
      rw [hnil]
      simp
    · obtain ⟨k, hk⟩ : ∃ k, (toInt32 p.uLines).toNat = k + 1 := ⟨_, (Nat.succ_pred_eq_of_pos hpos).symm⟩
      have hlast := meridianOf_last_eq_first p (toInt32 p.uLines) (effNr p) (by omega)
      rw [hk, Nat.add_sub_cancel] at hlast
      obtain ⟨⟨tl, htl⟩, ⟨front, hfront⟩⟩ :=
        meridianData_ends (⟨Real.exp, Real.sin, Real.cos, Real.pi, id⟩ : JsMath ℝ) p k hk
      have hlen := length_meridianOf (⟨Real.exp, Real.sin, Real.cos, Real.pi, id⟩ : JsMath ℝ) p
        (toInt32 p.uLines) (effNr p)
      have e1 : (meridianData (⟨Real.exp, Real.sin, Real.cos, Real.pi, id⟩ : JsMath ℝ) p).take
          (6 * ((effNr p).toNat - 1))
          = meridianOf ⟨Real.exp, Real.sin, Real.cos, Real.pi, id⟩ p (toInt32 p.uLines) (effNr p) 0 := by
        rw [htl]
        exact List.take_left' (hlen 0)
      have e2 : (meridianData (⟨Real.exp, Real.sin, Real.cos, Real.pi, id⟩ : JsMath ℝ) p).drop
          ((meridianData (⟨Real.exp, Real.sin, Real.cos, Real.pi, id⟩ : JsMath ℝ) p).length
            - 6 * ((effNr p).toNat - 1))
          = meridianOf ⟨Real.exp, Real.sin, Real.cos, Real.pi, id⟩ p (toInt32 p.uLines) (effNr p) k := by
        rw [hfront]
        apply List.drop_left'
        rw [List.length_append, hlen k]
        omega
      rw [e1, e2, hlast]
  · -- at most `uLines - 1` different meridians
    rcases Nat.lt_or_ge (toInt32 p.uLines).toNat 2 with hsmall | hbig
    · refine ⟨meridians ⟨Real.exp, Real.sin, Real.cos, Real.pi, id⟩ p, ?_, fun m hm => hm⟩
      simp only [meridians, List.length_map, List.length_range]
      omega
    · refine ⟨(List.range ((toInt32 p.uLines).toNat - 1)).map
          (meridianOf ⟨Real.exp, Real.sin, Real.cos, Real.pi, id⟩ p (toInt32 p.uLines) (effNr p)),
          ?_, ?_⟩
      · simp only [List.length_map, List.length_range]
        omega
      · intro m hm
        simp only [meridians, List.mem_map, List.mem_range] at hm ⊢
        obtain ⟨j, hj, rfl⟩ := hm
        rcases Nat.lt_or_ge j ((toInt32 p.uLines).toNat - 1) with hlt | hge
        · exact ⟨j, hlt, rfl⟩
        · have hj' : j = (toInt32 p.uLines).toNat - 1 := by omega
          refine ⟨0, by omega, ?_⟩
          rw [hj', meridianOf_last_eq_first p (toInt32 p.uLines) (effNr p) (by omega)]
  · intro hlt
    have hn : toInt32 p.uLines = uLines := by
      rw [hu]
      exact toInt32_int uLines (by omega) hlt
    refine ⟨?_, meridianAngle_first _, meridianAngle_last _ (by omega)⟩
    simp only [meridians, List.length_map, List.length_range, hn]
    omega

/-- C10 at `uLines = 2`, `Nr = 2`: two meridians, at the angles `0` and `2π`,
with the same vertices. -/
theorem C10_duplicate_seam_meridian_witness :
    (meridians ⟨Real.exp, Real.sin, Real.cos, Real.pi, id⟩
          { params ℝ with Nr := fin 2, uLines := fin ((2 : ℤ) : ℚ) }).head?
        = (meridians ⟨Real.exp, Real.sin, Real.cos, Real.pi, id⟩
          { params ℝ with Nr := fin 2, uLines := fin ((2 : ℤ) : ℚ) }).getLast?
      ∧ ((meridians ⟨Real.exp, Real.sin, Real.cos, Real.pi, id⟩
          { params ℝ with Nr := fin 2, uLines := fin ((2 : ℤ) : ℚ) }).length : ℤ) = 2
      ∧ meridianAngle ⟨Real.exp, Real.sin, Real.cos, Real.pi, id⟩
          (toInt32 (fin ((2 : ℤ) : ℚ))) 0 = 0
      ∧ meridianAngle ⟨Real.exp, Real.sin, Real.cos, Real.pi, id⟩
          (toInt32 (fin ((2 : ℤ) : ℚ))) ((toInt32 (fin ((2 : ℤ) : ℚ))).toNat - 1)
          = 2 * Real.pi :=
  ⟨(C10_duplicate_seam_meridian constructor
      { params ℝ with Nr := fin 2, uLines := fin ((2 : ℤ) : ℚ) } 2 rfl (by decide)).2.1,
   (C10_duplicate_seam_meridian constructor
      { params ℝ with Nr := fin 2, uLines := fin ((2 : ℤ) : ℚ) } 2 rfl (by decide)).2.2.2.2
      (by decide)⟩

end Claims
